import Mathlib

/-!
# Verification of guacalib's repository layer

A shallow embedding of the SQL repository functions of `guacalib` (the
Identity Resolution, Hierarchy and Permission Management engine for the
Guacamole relational store), together with proofs about them.

Tables are embedded as lists of rows; each repository function becomes a
Lean function from the store state (and its explicit inputs, such as the
fresh salt returned by `os.urandom` or the auto-increment id chosen by
the store) to either a new state or an error value.  Python exceptions
become values of `Guacalib.Err`; a raised error aborts the enclosing
transaction, which the caller rolls back (`BaseGuacamoleRepository.__exit__`
commits on success and rolls back on an exception), so an `Except.error`
result leaves the store in its pre-operation state.

`cursor.rowcount` is modelled with MySQL's default affected-rows
semantics, which `mysql-connector-python` uses (it does not request
`CLIENT.FOUND_ROWS`): an UPDATE counts only the rows whose stored values
actually changed.
-/

namespace Guacalib

/-- Error values corresponding to the exception classes raised by the
repository functions: `ValueError` in the legacy modules
(`users_repo.py`, `permissions_repo.py`, `conngroups_repo.py`), and
`ValidationError`, `EntityNotFoundError`, `PermissionError` from
`guacalib/exceptions.py` in the class-based repositories. -/
inductive Err where
  | valueError (msg : String)
  | validationError (msg : String)
  | entityNotFound (entityType : String) (identifier : String)
  | permissionError (msg : String)
  deriving DecidableEq, Repr

/-- Entity kinds of `guacamole_entity.type`. -/
inductive EType where
  | user
  | userGroup
  deriving DecidableEq, Repr

/-- A row of `guacamole_entity`. -/
structure EntityRow where
  id : Nat
  name : String
  etype : EType
  deriving DecidableEq, Repr

/-- A row of `guacamole_user` (credential columns only). -/
structure UserRow where
  entityId : Nat
  passwordHash : List Nat
  passwordSalt : List Nat
  passwordDate : Nat
  deriving DecidableEq, Repr

/-- A row of `guacamole_user_group`. -/
structure UGRow where
  userGroupId : Nat
  entityId : Nat
  deriving DecidableEq, Repr

/-- A row of `guacamole_user_group_member`. -/
structure MemberRow where
  userGroupId : Nat
  memberEntityId : Nat
  deriving DecidableEq, Repr

/-- A row of `guacamole_user_group_permission`. -/
structure UGPermRow where
  entityId : Nat
  affectedUserGroupId : Nat
  permission : String
  deriving DecidableEq, Repr

/-- A row of `guacamole_connection` (name and parent group only). -/
structure ConnRow where
  id : Nat
  name : String
  parent : Option Nat
  deriving DecidableEq, Repr

/-- A row of `guacamole_connection_permission`. -/
structure ConnPermRow where
  entityId : Nat
  connectionId : Nat
  permission : String
  deriving DecidableEq, Repr

/-- A row of `guacamole_connection_group`: surrogate id, name, optional parent. -/
structure CGRow where
  id : Nat
  name : String
  parent : Option Nat
  deriving DecidableEq, Repr

/-- A row of `guacamole_connection_group_permission`. -/
structure CGPermRow where
  entityId : Nat
  connectionGroupId : Nat
  permission : String
  deriving DecidableEq, Repr

/-- The store state: the tables the verified operations touch. -/
structure Db where
  entities : List EntityRow
  users : List UserRow
  userGroups : List UGRow
  members : List MemberRow
  ugPerms : List UGPermRow
  conns : List ConnRow
  connPerms : List ConnPermRow
  connGroups : List CGRow
  cgPerms : List CGPermRow
  deriving DecidableEq, Repr

/-- Python truthiness of an optional string argument (`if new_parent_name:`
is false for both `None` and the empty string). -/
def truthyS : Option String → Bool
  | none => false
  | some s => !(s == "")

/-- Python truthiness of an optional integer argument (`if not group_id`
is true for both `None` and `0`). -/
def truthyN : Option Nat → Bool
  | none => false
  | some n => !(n == 0)

/-- The transaction boundary (`BaseGuacamoleRepository.__exit__` /
`GuacamoleDB.__exit__`): the new state on success, rollback to the
pre-operation state on a raised error. -/
def runTx (r : Except Err Db) (db : Db) : Db :=
  match r with
  | .ok db2 => db2
  | .error _ => db

/-! ## Connection-group hierarchy (`guacalib/conngroups_repo.py`) -/

/-- The ids present in the `guacamole_connection_group` table. -/
def cgIds (gs : List CGRow) : List Nat := gs.map (fun r => r.id)

/-- One step of the ancestor walk:
`SELECT parent_id FROM guacamole_connection_group WHERE connection_group_id = c`,
yielding the row's parent if the row exists and `none` otherwise (either
way a `none` ends the `while` loop). -/
def nextParent (gs : List CGRow) (c : Nat) : Option Nat :=
  match gs.find? (fun r => r.id == c) with
  | some r => r.parent
  | none => none

/-- `k`-fold iteration of `nextParent` starting from the id `p`:
the ancestor chain of `p`. -/
def iterParent (gs : List CGRow) (p : Nat) : Nat → Option Nat
  | 0 => some p
  | k + 1 =>
    match nextParent gs p with
    | none => none
    | some q => iterParent gs q k

/-- The `while current_parent is not None` loop of
`check_connection_group_cycle`, searching the ancestor chain for
`target`.  `fuel` bounds the number of iterations; the result `none`
models non-termination of the loop. -/
def findInChain (gs : List CGRow) (target : Option Nat) : Option Nat → Nat → Option Bool
  | none, _ => some false
  | some c, fuel =>
    if some c = target then some true
    else
      match fuel with
      | 0 => none
      | f + 1 => findInChain gs target (nextParent gs c) f

/-- `check_connection_group_cycle(cursor, group_id, parent_id)` from
`guacalib/conngroups_repo.py`: whether setting `group_id`'s parent to
`parent_id` would create a cycle, by walking `parent_id`'s ancestor
chain.  `create_connection_group` passes Python `None` as `group_id`,
modelled as `Option.none` (an integer is never equal to `None`). -/
def checkConnectionGroupCycle (gs : List CGRow) (groupId : Option Nat)
    (parentId : Option Nat) (fuel : Nat) : Option Bool :=
  match parentId with
  | none => some false
  | some p => findInChain gs groupId (some p) fuel

/-- Effect of `UPDATE guacamole_connection_group SET parent_id = p WHERE
connection_group_id = i` on the table. -/
def setParentRows (gs : List CGRow) (i : Nat) (p : Option Nat) : List CGRow :=
  gs.map (fun r => if r.id == i then { r with parent := p } else r)

/-- `cursor.rowcount` after that UPDATE: the number of rows whose stored
value actually changed (MySQL's default affected-rows semantics). -/
def cgChangedCount (gs : List CGRow) (i : Nat) (p : Option Nat) : Nat :=
  (gs.filter (fun r => r.id == i && !(r.parent == p))).length

/-- The final UPDATE of `modify_connection_group_parent` with its
`rowcount == 0` guard. -/
def cgDoUpdate (gs : List CGRow) (resolvedId : Nat) (displayName : String)
    (newParentId : Option Nat) : Option (Except Err (List CGRow)) :=
  if cgChangedCount gs resolvedId newParentId == 0 then
    some (.error (.valueError s!"Failed to update parent group for '{displayName}'"))
  else
    some (.ok (setParentRows gs resolvedId newParentId))

/-- Shared tail of `modify_connection_group_parent`: resolution of the
new parent name, the cycle check, and the guarded UPDATE.  `resolvedId`
is the id of the group being reparented and `displayName` its name as
used in error messages. -/
def modifyCGTail (gs : List CGRow) (resolvedId : Nat) (displayName : String)
    (newParentName : Option String) : Option (Except Err (List CGRow)) :=
  match newParentName with
  | none => cgDoUpdate gs resolvedId displayName none
  | some pn =>
    if pn == "" then cgDoUpdate gs resolvedId displayName none
    else
      match gs.find? (fun r => r.name == pn) with
      | none => some (.error (.valueError s!"Parent connection group '{pn}' not found"))
      | some prow =>
        match checkConnectionGroupCycle gs (some resolvedId) (some prow.id) (gs.length + 1) with
        | none => none
        | some true =>
          some (.error (.valueError "Setting parent would create a cycle in connection groups"))
        | some false => cgDoUpdate gs resolvedId displayName (some prow.id)

/-- `modify_connection_group_parent` from `guacalib/conngroups_repo.py`
(the class-based variant in `repositories/connection_group.py` performs
the same steps, with the selector validation delegated to
`resolve_conngroup_id` and `ValidationError`/`EntityNotFoundError` in
place of `ValueError`).  On the id path the source re-reads the row to
obtain the display name for error messages; that second read returns the
row already found.  The outer `Option` propagates a diverging ancestor
walk, which is given `gs.length + 1` fuel. -/
def modifyConnectionGroupParent (gs : List CGRow) (groupName : Option String)
    (groupId : Option Nat) (newParentName : Option String) :
    Option (Except Err (List CGRow)) :=
  if groupName.isNone == groupId.isNone then
    some (.error (.valueError "Exactly one of group_name or group_id must be provided"))
  else
    match groupId with
    | some i =>
      match gs.find? (fun r => r.id == i) with
      | none => some (.error (.valueError s!"Connection group with ID {i} not found"))
      | some row => modifyCGTail gs i row.name newParentName
    | none =>
      match groupName with
      | some n =>
        match gs.find? (fun r => r.name == n) with
        | none => some (.error (.valueError s!"Connection group '{n}' not found"))
        | some row => modifyCGTail gs row.id n newParentName
      | none =>
        -- unreachable: guarded by the exactly-one check above
        some (.error (.valueError "Exactly one of group_name or group_id must be provided"))

/-- The INSERT and post-insert verification at the end of
`create_connection_group`.  `newId` is the auto-increment id the store
assigns to the inserted row. -/
def createCGInsert (gs : List CGRow) (groupName : String) (newId : Nat)
    (parentId : Option Nat) : Except Err (List CGRow) :=
  match (gs ++ [({ id := newId, name := groupName, parent := parentId } : CGRow)]).find?
      (fun r => r.name == groupName) with
  | none => .error (.valueError "Failed to create connection group - no ID returned")
  | some _ => .ok (gs ++ [{ id := newId, name := groupName, parent := parentId }])

/-- `create_connection_group` from `guacalib/conngroups_repo.py`. -/
def createConnectionGroup (gs : List CGRow) (groupName : String)
    (parentGroupName : Option String) (newId : Nat) :
    Option (Except Err (List CGRow)) :=
  match parentGroupName with
  | none => some (createCGInsert gs groupName newId none)
  | some pn =>
    if pn == "" then some (createCGInsert gs groupName newId none)
    else
      match gs.find? (fun r => r.name == pn) with
      | none => some (.error (.valueError s!"Parent connection group '{pn}' not found"))
      | some prow =>
        match checkConnectionGroupCycle gs none (some prow.id) (gs.length + 1) with
        | none => none
        | some true =>
          some (.error (.valueError s!"Parent connection group '{pn}' is invalid"))
        | some false => some (createCGInsert gs groupName newId (some prow.id))

/-- MySQL auto-increment: the id assigned to a newly inserted connection
group, strictly greater than every id already in the table. -/
def freshCGId (gs : List CGRow) : Nat :=
  (gs.foldr (fun r m => max r.id m) 0) + 1

/-- A Hierarchy Manager mutation: `create_connection_group` or
`modify_connection_group_parent`. -/
inductive CGOp where
  | create (groupName : String) (parentGroupName : Option String)
  | reparent (groupName : Option String) (groupId : Option Nat) (newParentName : Option String)
  deriving Repr

/-- One operation against the `guacamole_connection_group` table. -/
def stepCG (gs : List CGRow) : CGOp → Option (Except Err (List CGRow))
  | .create n pn => createConnectionGroup gs n pn (freshCGId gs)
  | .reparent gn gi pn => modifyConnectionGroupParent gs gn gi pn

/-- A sequence of create/reparent operations, each in its own
transaction: a raised error rolls its transaction back, leaving the
table unchanged; `none` propagates a diverging ancestor walk. -/
def runCGOps (gs : List CGRow) : List CGOp → Option (List CGRow)
  | [] => some gs
  | op :: rest =>
    match stepCG gs op with
    | none => none
    | some (.error _) => runCGOps gs rest
    | some (.ok gs2) => runCGOps gs2 rest

/-- Referential integrity of parent pointers: the store's foreign key
from `parent_id` to `connection_group_id`. -/
def ClosedParents (gs : List CGRow) : Prop :=
  ∀ r ∈ gs, ∀ p, r.parent = some p → p ∈ cgIds gs

/-- Acyclicity of the parent relation: no group is its own strict ancestor. -/
def AcyclicCG (gs : List CGRow) : Prop :=
  ∀ r ∈ gs, ∀ k, iterParent gs r.id (k + 1) ≠ some r.id

/-- The store invariant on the connection-group table: unique surrogate
ids, parent pointers that reference existing rows, and acyclicity. -/
def CGInv (gs : List CGRow) : Prop :=
  (cgIds gs).Nodup ∧ ClosedParents gs ∧ AcyclicCG gs

/-- A connection group is promoted to root when its parent is deleted. -/
def promoteCG (gid : Nat) (r : CGRow) : CGRow :=
  if r.parent == some gid then { r with parent := none } else r

/-- A connection is promoted to root when its parent group is deleted. -/
def promoteConn (gid : Nat) (c : ConnRow) : ConnRow :=
  if c.parent == some gid then { c with parent := none } else c

/-- `delete_connection_group` from `guacalib/conngroups_repo.py`
(the class-based variant in `repositories/connection_group.py` performs
the same three statements after resolving the selector): NULL out the
parent of child groups, NULL out the parent of child connections, then
delete the group's own row. -/
def deleteConnectionGroup (gs : List CGRow) (cs : List ConnRow)
    (groupName : Option String) (groupId : Option Nat) :
    Except Err (List CGRow × List ConnRow) :=
  if !truthyS groupName && !truthyN groupId then
    .error (.valueError "Either group_name or group_id must be provided")
  else if truthyS groupName && truthyN groupId then
    .error (.valueError "Provide either group_name or group_id, not both")
  else
    let resolved? : Except Err Nat :=
      if truthyS groupName then
        match groupName with
        | some n =>
          match gs.find? (fun r => r.name == n) with
          | none => .error (.valueError s!"Connection group '{n}' not found")
          | some r => .ok r.id
        | none => .error (.valueError "Either group_name or group_id must be provided")
      else
        match groupId with
        | some i =>
          if gs.any (fun r => r.id == i) then .ok i
          else .error (.valueError s!"Connection group with ID {i} not found")
        | none => .error (.valueError "Either group_name or group_id must be provided")
    match resolved? with
    | .error e => .error e
    | .ok gid =>
      .ok (((gs.map (promoteCG gid)).filter (fun r => !(r.id == gid))),
           cs.map (promoteConn gid))

/-! ## The generic entity resolver (`guacalib/repositories/base.py`) -/

/-- A row as seen by `_resolve_entity_id`: the surrogate id returned by
`id_query`/`name_query` together with the unique name.  Ids are `Int`
so that the positivity validation is meaningful. -/
structure IdNameRow where
  id : Int
  name : String
  deriving DecidableEq, Repr

/-- The direct lookup of a surrogate id by name (the `name_query` alone). -/
def directNameLookup (rows : List IdNameRow) (n : String) : Option Int :=
  (rows.find? (fun r => r.name == n)).map (fun r => r.id)

/-- `_resolve_entity_id` from `guacalib/repositories/base.py`, over the
table the two queries range over.  The positivity check is
`validate_positive_id` (raising `ValidationError` for `id <= 0`),
inlined at its single call site on the id path. -/
def resolveEntityId (rows : List IdNameRow) (entityName : Option String)
    (entityId : Option Int) (entityType : String) : Except Err Int :=
  if entityName.isNone == entityId.isNone then
    let lt := entityType.toLower
    .error (.validationError s!"Exactly one of {lt}_name or {lt}_id must be provided")
  else
    match entityId with
    | some v =>
      if v ≤ 0 then
        .error (.validationError s!"{entityType} ID must be a positive integer greater than 0")
      else
        match rows.find? (fun r => r.id == v) with
        | none => .error (.entityNotFound entityType (toString v))
        | some _ => .ok v
    | none =>
      match entityName with
      | some n =>
        match rows.find? (fun r => r.name == n) with
        | none => .error (.entityNotFound entityType n)
        | some r => .ok r.id
      | none =>
        -- unreachable: guarded by the exactly-one check above
        .error (.validationError "unreachable")

/-! ## User lifecycle (`guacalib/users_repo.py`) -/

/-- `user_exists`: `COUNT(*) > 0` over USER entities with this name. -/
def userExists (db : Db) (username : String) : Bool :=
  db.entities.any (fun e => e.name == username && e.etype == EType.user)

/-- The subquery `SELECT entity_id FROM guacamole_entity WHERE name = %s
AND type = 'USER'` used by the cascading DELETEs of `delete_user`. -/
def userEntityIds (db : Db) (username : String) : List Nat :=
  (db.entities.filter (fun e => e.name == username && e.etype == EType.user)).map
    (fun e => e.id)

/-- `delete_user` from `guacalib/users_repo.py`: existence check, then
the five DELETEs in source order — user-group permission rows, group
memberships, connection permission rows, the user row, the entity row.
(`UserRepository.delete_existing_user` runs the same statements.)  The
subqueries read `guacamole_entity`, which is unchanged until the final
DELETE, so they select the same ids at every step. -/
def deleteUser (db : Db) (username : String) : Except Err Db :=
  if !userExists db username then
    .error (.valueError s!"User '{username}' not found")
  else
    let uids := userEntityIds db username
    .ok { db with
      ugPerms := db.ugPerms.filter (fun p => !(uids.contains p.entityId)),
      members := db.members.filter (fun m => !(uids.contains m.memberEntityId)),
      connPerms := db.connPerms.filter (fun p => !(uids.contains p.entityId)),
      users := db.users.filter (fun u => !(uids.contains u.entityId)),
      entities := db.entities.filter
        (fun e => !(e.name == username && e.etype == EType.user)) }

/-- The ASCII code of the uppercase hexadecimal digit of `n < 16`. -/
def hexDigitUpper (n : Nat) : Nat := if n < 10 then 48 + n else 55 + n

/-- `binascii.hexlify(salt).upper()`: two uppercase hex digits per byte. -/
def hexlifyUpper (bytes : List Nat) : List Nat :=
  (bytes.map (fun b => [hexDigitUpper (b / 16), hexDigitUpper (b % 16)])).flatten

/-- `password.encode("utf-8")` as a byte list. -/
def utf8Bytes (s : String) : List Nat := s.toUTF8.toList.map (fun b => b.toNat)

/-- `create_user` from `guacalib/users_repo.py`.  `sha256` stands for
`hashlib.sha256(...).digest()`; `freshSalt` is the value `os.urandom(32)`
returned during this call; `newEntityId` is the auto-increment id of the
inserted entity row; `now` is the value of `NOW()`.  The second INSERT
is an `INSERT ... SELECT` adding one user row per entity matching
`(username, USER)` in the post-insert entity table. -/
def createUser (sha256 : List Nat → List Nat) (db : Db) (username password : String)
    (freshSalt : List Nat) (newEntityId : Nat) (now : Nat) : Db :=
  let saltHex := hexlifyUpper freshSalt
  let digest := sha256 (utf8Bytes password ++ saltHex)
  let entities2 := db.entities ++ [⟨newEntityId, username, EType.user⟩]
  { db with
    entities := entities2,
    users := db.users ++
      (entities2.filter (fun e => e.name == username && e.etype == EType.user)).map
        (fun e => ⟨e.id, digest, freshSalt, now⟩) }

/-- `change_user_password` from `guacalib/users_repo.py`: a fresh salt
and digest are computed, the user's entity id is resolved, and the
credential columns are updated; `cursor.rowcount` counts the rows whose
stored values actually changed, and zero changed rows raises. -/
def changeUserPassword (sha256 : List Nat → List Nat) (db : Db)
    (username newPassword : String) (freshSalt : List Nat) (now : Nat) :
    Except Err Db :=
  let saltHex := hexlifyUpper freshSalt
  let digest := sha256 (utf8Bytes newPassword ++ saltHex)
  match db.entities.find? (fun e => e.name == username && e.etype == EType.user) with
  | none => .error (.valueError s!"User '{username}' not found")
  | some ent =>
    let rowcount := (db.users.filter (fun u => u.entityId == ent.id &&
      !(u.passwordHash == digest && u.passwordSalt == freshSalt &&
        u.passwordDate == now))).length
    if rowcount == 0 then
      .error (.valueError s!"Failed to update password for user '{username}'")
    else
      .ok { db with users := db.users.map (fun u =>
        if u.entityId == ent.id then
          { u with passwordHash := digest, passwordSalt := freshSalt,
                   passwordDate := now }
        else u) }

/-! ## Membership and the permission ledger (`guacalib/permissions_repo.py`,
`guacalib/repositories/connection_group.py`) -/

/-- The JOIN of `add_user_to_usergroup` / `remove_user_from_usergroup`:
the first `guacamole_user_group` row whose entity carries this name. -/
def findUserGroup (db : Db) (groupName : String) : Option UGRow :=
  db.userGroups.find? (fun ug =>
    match db.entities.find? (fun e => e.id == ug.entityId) with
    | some e => e.name == groupName
    | none => false)

/-- The number of (user, group, READ) rows in
`guacamole_user_group_permission`. -/
def countReadUGPerm (db : Db) (uid gid : Nat) : Nat :=
  (db.ugPerms.filter (fun p => p.entityId == uid &&
    p.affectedUserGroupId == gid && p.permission == "READ")).length

/-- `add_user_to_usergroup` from `guacalib/permissions_repo.py`: resolve
the group and the user, INSERT the membership row, then the guarded
`INSERT ... WHERE NOT EXISTS` granting READ on the group if and only if
no such READ edge exists yet. -/
def addUserToUsergroup (db : Db) (username groupName : String) : Except Err Db :=
  match findUserGroup db groupName with
  | none => .error (.valueError s!"User group '{groupName}' not found")
  | some ug =>
    match db.entities.find? (fun e => e.name == username && e.etype == EType.user) with
    | none => .error (.valueError s!"User '{username}' not found")
    | some ue =>
      let hasRead := db.ugPerms.any (fun p => p.entityId == ue.id &&
        p.affectedUserGroupId == ug.userGroupId && p.permission == "READ")
      .ok { db with
        members := db.members ++ [⟨ug.userGroupId, ue.id⟩],
        ugPerms := if hasRead then db.ugPerms
                   else db.ugPerms ++ [⟨ue.id, ug.userGroupId, "READ"⟩] }

/-- `remove_user_from_usergroup` from `guacalib/permissions_repo.py`:
resolve the group and the user, check the membership count, then delete
the membership row and every permission edge of the user on the group
(no permission-level filter on the final DELETE). -/
def removeUserFromUsergroup (db : Db) (username groupName : String) : Except Err Db :=
  match findUserGroup db groupName with
  | none => .error (.valueError s!"User group '{groupName}' not found")
  | some ug =>
    match db.entities.find? (fun e => e.name == username && e.etype == EType.user) with
    | none => .error (.valueError s!"User '{username}' not found")
    | some ue =>
      if (db.members.filter (fun m => m.userGroupId == ug.userGroupId &&
            m.memberEntityId == ue.id)).length == 0 then
        .error (.valueError s!"User '{username}' is not in group '{groupName}'")
      else
        .ok { db with
          members := db.members.filter (fun m =>
            !(m.userGroupId == ug.userGroupId && m.memberEntityId == ue.id)),
          ugPerms := db.ugPerms.filter (fun p =>
            !(p.entityId == ue.id && p.affectedUserGroupId == ug.userGroupId)) }

/-- `grant_connection_permission_to_user` from
`guacalib/permissions_repo.py`: resolve the connection and the user,
raise if any permission row on the pair exists (regardless of its
level), otherwise insert a READ row. -/
def grantConnectionPermissionToUser (db : Db) (username connectionName : String) :
    Except Err Db :=
  match db.conns.find? (fun c => c.name == connectionName) with
  | none => .error (.valueError s!"Connection '{connectionName}' not found")
  | some c =>
    match db.entities.find? (fun e => e.name == username && e.etype == EType.user) with
    | none => .error (.valueError s!"User '{username}' not found")
    | some ue =>
      if db.connPerms.any (fun p => p.entityId == ue.id && p.connectionId == c.id) then
        .error (.valueError
          s!"User '{username}' already has permission for connection '{connectionName}'")
      else
        .ok { db with connPerms := db.connPerms ++ [⟨ue.id, c.id, "READ"⟩] }

/-- `revoke_connection_permission_from_user` from
`guacalib/permissions_repo.py`.  `raceDrop` models the race window the
function leaves open: when true, a concurrent actor deletes the pair's
permission rows between this function's existence check and its DELETE.
The function performs no rowcount verification after the DELETE. -/
def revokeConnectionPermissionFromUser (db : Db) (username connectionName : String)
    (raceDrop : Bool) : Except Err Db :=
  match db.conns.find? (fun c => c.name == connectionName) with
  | none => .error (.valueError s!"Connection '{connectionName}' not found")
  | some c =>
    match db.entities.find? (fun e => e.name == username && e.etype == EType.user) with
    | none => .error (.valueError s!"User '{username}' not found")
    | some ue =>
      if !(db.connPerms.any (fun p => p.entityId == ue.id && p.connectionId == c.id)) then
        .error (.valueError
          s!"User '{username}' does not have permission for connection '{connectionName}'")
      else
        let atDelete := if raceDrop then
            db.connPerms.filter (fun p => !(p.entityId == ue.id && p.connectionId == c.id))
          else db.connPerms
        .ok { db with connPerms :=
          atDelete.filter (fun p => !(p.entityId == ue.id && p.connectionId == c.id)) }

/-- `grant_connection_group_permission_to_user` from
`guacalib/repositories/connection_group.py`: non-empty-string
validation, resolution of the group and the user, then — if a
permission row on the pair exists — raise when its level is READ but
update the row's level to READ in place when it is anything else;
insert a READ row when no row exists. -/
def grantConnectionGroupPermissionToUser (db : Db) (username conngroupName : String) :
    Except Err Db :=
  if username == "" then
    .error (.validationError "Username must be a non-empty string")
  else if conngroupName == "" then
    .error (.validationError "Connection group name must be a non-empty string")
  else
    match db.connGroups.find? (fun g => g.name == conngroupName) with
    | none => .error (.entityNotFound "connection group" conngroupName)
    | some g =>
      match db.entities.find? (fun e => e.name == username && e.etype == EType.user) with
      | none => .error (.entityNotFound "user" username)
      | some ue =>
        match db.cgPerms.find? (fun p => p.entityId == ue.id &&
            p.connectionGroupId == g.id) with
        | some existing =>
          if existing.permission == "READ" then
            .error (.permissionError
              s!"User '{username}' already has permission for connection group '{conngroupName}'")
          else
            .ok { db with cgPerms := db.cgPerms.map (fun p =>
              if p.entityId == ue.id && p.connectionGroupId == g.id then
                { p with permission := "READ" }
              else p) }
        | none =>
          .ok { db with cgPerms := db.cgPerms ++ [⟨ue.id, g.id, "READ"⟩] }

/-- `DELETE ... WHERE entity_id = e AND connection_group_id = g LIMIT 1`:
remove the first matching row. -/
def eraseFirstCGPerm (ps : List CGPermRow) (e g : Nat) : List CGPermRow :=
  match ps with
  | [] => []
  | p :: rest =>
    if p.entityId == e && p.connectionGroupId == g then rest
    else p :: eraseFirstCGPerm rest e g

/-- `revoke_connection_group_permission_from_user` from
`guacalib/repositories/connection_group.py`: validation, resolution,
existence check, then `DELETE ... LIMIT 1` followed by a rowcount
verification that raises when the DELETE affected zero rows.  `raceDrop`
models a concurrent actor deleting the pair's rows between the
existence check and the DELETE. -/
def revokeConnectionGroupPermissionFromUser (db : Db) (username conngroupName : String)
    (raceDrop : Bool) : Except Err Db :=
  if username == "" then
    .error (.validationError "Username must be a non-empty string")
  else if conngroupName == "" then
    .error (.validationError "Connection group name must be a non-empty string")
  else
    match db.connGroups.find? (fun g => g.name == conngroupName) with
    | none => .error (.entityNotFound "connection group" conngroupName)
    | some g =>
      match db.entities.find? (fun e => e.name == username && e.etype == EType.user) with
      | none => .error (.entityNotFound "user" username)
      | some ue =>
        match db.cgPerms.find? (fun p => p.entityId == ue.id &&
            p.connectionGroupId == g.id) with
        | none =>
          .error (.permissionError
            s!"User '{username}' has no permission for connection group '{conngroupName}'")
        | some _ =>
          let atDelete := if raceDrop then
              db.cgPerms.filter (fun p =>
                !(p.entityId == ue.id && p.connectionGroupId == g.id))
            else db.cgPerms
          let rowcount := if atDelete.any (fun p => p.entityId == ue.id &&
              p.connectionGroupId == g.id) then 1 else 0
          if rowcount == 0 then
            .error (.permissionError
              "Failed to revoke permission - no rows affected. Permission may have been removed by another operation.")
          else
            .ok { db with cgPerms := eraseFirstCGPerm atDelete ue.id g.id }

/-! ## Small concrete stores used to evaluate the operations -/

/-- The empty store. -/
def emptyDb : Db := ⟨[], [], [], [], [], [], [], [], []⟩

/-- Two connection groups: `prod` is a child of `ops`. -/
def demoCG : List CGRow := [⟨1, "ops", none⟩, ⟨2, "prod", some 1⟩]

/-- A user `alice` holding a group membership, a user-group permission, a
connection permission and a connection-group permission. -/
def dbC2 : Db :=
  { emptyDb with
    entities := [⟨1, "alice", EType.user⟩, ⟨2, "devs", EType.userGroup⟩],
    users := [⟨1, [7], [8], 0⟩],
    userGroups := [⟨10, 2⟩],
    members := [⟨10, 1⟩],
    ugPerms := [⟨1, 10, "READ"⟩],
    conns := [⟨20, "srv1", none⟩],
    connPerms := [⟨1, 20, "READ"⟩],
    connGroups := [⟨30, "grp", none⟩],
    cgPerms := [⟨1, 30, "READ"⟩] }

/-- A two-row resolver table. -/
def demoRows : List IdNameRow := [⟨5, "alice"⟩, ⟨7, "bob"⟩]

/-- A user `alice` holding a non-READ permission on connection `srv` and a
non-READ permission on connection group `grp`. -/
def dbC4 : Db :=
  { emptyDb with
    entities := [⟨1, "alice", EType.user⟩],
    conns := [⟨20, "srv", none⟩],
    connPerms := [⟨1, 20, "UPDATE"⟩],
    connGroups := [⟨30, "grp", none⟩],
    cgPerms := [⟨1, 30, "ADMINISTER"⟩] }

/-- A user `alice` holding READ permissions on connection `srv` and on
connection group `grp`. -/
def dbC5 : Db :=
  { emptyDb with
    entities := [⟨1, "alice", EType.user⟩],
    conns := [⟨20, "srv", none⟩],
    connPerms := [⟨1, 20, "READ"⟩],
    connGroups := [⟨30, "grp", none⟩],
    cgPerms := [⟨1, 30, "READ"⟩] }

/-- A connection-group tree with two child groups under `root`. -/
def gsC6 : List CGRow := [⟨1, "root", none⟩, ⟨2, "childA", some 1⟩, ⟨3, "childB", some 1⟩]

/-- Two connections, one inside group 1. -/
def csC6 : List ConnRow := [⟨40, "conn1", some 1⟩, ⟨41, "conn2", none⟩]

/-- A user `alice` and a user group `devs`, with no membership yet. -/
def dbC7 : Db :=
  { emptyDb with
    entities := [⟨1, "alice", EType.user⟩, ⟨2, "devs", EType.userGroup⟩],
    userGroups := [⟨10, 2⟩] }

/-- `alice` as a member of `devs` holding the derived READ edge. -/
def dbC10 : Db :=
  { dbC7 with
    members := [⟨10, 1⟩],
    ugPerms := [⟨1, 10, "READ"⟩] }

/-- A store with a single user `alice`. -/
def dbC9 : Db :=
  { emptyDb with
    entities := [⟨1, "alice", EType.user⟩],
    users := [⟨1, [9], [1], 0⟩] }

/-! ## Lemmas about the ancestor walk -/

theorem iterParent_succ (gs : List CGRow) (p : Nat) (k : Nat) :
    iterParent gs p (k + 1) =
      match nextParent gs p with
      | none => none
      | some q => iterParent gs q k := rfl

theorem iterParent_add (gs : List CGRow) (p : Nat) (a b : Nat) :
    iterParent gs p (a + b) =
      (iterParent gs p a).bind (fun q => iterParent gs q b) := by
  induction a generalizing p with
  | zero => simp [iterParent]
  | succ a ih =>
    have h1 : a + 1 + b = (a + b) + 1 := by omega
    rw [h1, iterParent_succ, iterParent_succ]
    cases nextParent gs p with
    | none => simp
    | some q => simp [ih]

theorem findInChain_some_unfold (gs : List CGRow) (t : Option Nat) (c : Nat) (f : Nat) :
    findInChain gs t (some c) f =
      if some c = t then some true
      else
        match f with
        | 0 => none
        | f' + 1 => findInChain gs t (nextParent gs c) f' := by
  cases f with
  | zero => rfl
  | succ f' => rfl

theorem findInChain_mono (gs : List CGRow) (t : Option Nat) :
    ∀ (f : Nat) (cur : Option Nat) (f' : Nat) (b : Bool), f ≤ f' →
      findInChain gs t cur f = some b → findInChain gs t cur f' = some b := by
  intro f
  induction f with
  | zero =>
    intro cur f' b _ h
    cases cur with
    | none => simpa [findInChain] using h
    | some c =>
      rw [findInChain_some_unfold] at h
      by_cases hc : some c = t
      · simp only [hc, if_pos rfl] at h
        rw [findInChain_some_unfold, if_pos hc]
        exact h
      · simp only [if_neg hc] at h
        cases h
  | succ f ih =>
    intro cur f' b hle h
    cases cur with
    | none => simpa [findInChain] using h
    | some c =>
      rw [findInChain_some_unfold] at h
      by_cases hc : some c = t
      · simp only [if_pos hc] at h
        rw [findInChain_some_unfold, if_pos hc]
        exact h
      · simp only [if_neg hc] at h
        obtain ⟨f'', rfl⟩ : ∃ f'', f' = f'' + 1 := ⟨f' - 1, by omega⟩
        rw [findInChain_some_unfold, if_neg hc]
        exact ih (nextParent gs c) f'' b (by omega) h

theorem findInChain_true_of_iter (gs : List CGRow) (a : Nat) :
    ∀ (k p f : Nat), k ≤ f → iterParent gs p k = some a →
      findInChain gs (some a) (some p) f = some true := by
  intro k
  induction k with
  | zero =>
    intro p f _ h
    have hp : p = a := by simpa [iterParent] using h
    rw [findInChain_some_unfold, if_pos (by rw [hp])]
  | succ k ih =>
    intro p f hle h
    rw [iterParent_succ] at h
    rw [findInChain_some_unfold]
    by_cases hc : (some p : Option Nat) = some a
    · rw [if_pos hc]
    · rw [if_neg hc]
      obtain ⟨f', rfl⟩ : ∃ f', f = f' + 1 := ⟨f - 1, by omega⟩
      cases hnp : nextParent gs p with
      | none => rw [hnp] at h; cases h
      | some q =>
        rw [hnp] at h
        exact ih q f' (by omega) h

theorem not_iter_of_findInChain_false (gs : List CGRow) (a : Nat) (p f : Nat)
    (h : findInChain gs (some a) (some p) f = some false) :
    ∀ k, iterParent gs p k ≠ some a := by
  intro k hk
  have htrue := findInChain_true_of_iter gs a k p (max k f) (le_max_left _ _) hk
  have hfalse := findInChain_mono gs (some a) f (some p) (max k f) false (le_max_right _ _) h
  rw [htrue] at hfalse
  cases hfalse

theorem mem_cgIds_of_find?_isSome (gs : List CGRow) {c : Nat}
    (h : (gs.find? (fun r => r.id == c)).isSome) : c ∈ cgIds gs := by
  cases hfind : gs.find? (fun r => r.id == c) with
  | none => rw [hfind] at h; cases h
  | some r =>
    have hr := List.mem_of_find?_eq_some hfind
    have hpr := List.find?_some hfind
    have hid : r.id = c := by simpa using hpr
    exact hid ▸ List.mem_map_of_mem _ hr

theorem exists_row_of_mem_cgIds (gs : List CGRow) {c : Nat} (h : c ∈ cgIds gs) :
    ∃ r ∈ gs, r.id = c := by
  obtain ⟨r, hr, hid⟩ := List.mem_map.mp h
  exact ⟨r, hr, hid⟩

theorem findInChain_isSome_of_acyclic (gs : List CGRow) (hac : AcyclicCG gs)
    (t : Option Nat) :
    ∀ (f : Nat) (c : Nat) (seen : List Nat), seen.Nodup →
      (∀ x ∈ seen, x ∈ cgIds gs) →
      (∀ x ∈ seen, ∀ k, iterParent gs c k ≠ some x) →
      gs.length + 1 ≤ f + seen.length →
      findInChain gs t (some c) f ≠ none := by
  intro f
  induction f with
  | zero =>
    intro c seen hnd hsub _ hlen
    exfalso
    have h1 : seen.length ≤ (cgIds gs).length :=
      (hnd.subperm (fun x hx => hsub x hx)).length_le
    have h2 : (cgIds gs).length = gs.length := List.length_map _ _
    omega
  | succ f ih =>
    intro c seen hnd hsub havoid hlen
    rw [findInChain_some_unfold]
    by_cases hc : (some c : Option Nat) = t
    · rw [if_pos hc]; exact fun h => by cases h
    · rw [if_neg hc]
      cases hnp : nextParent gs c with
      | none => exact fun h => by simp [findInChain] at h
      | some q =>
        have hcsome : (gs.find? (fun r => r.id == c)).isSome := by
          unfold nextParent at hnp
          cases hfind : gs.find? (fun r => r.id == c) with
          | none => rw [hfind] at hnp; cases hnp
          | some r => rfl
        have hcid : c ∈ cgIds gs := mem_cgIds_of_find?_isSome gs hcsome
        have hnotin : c ∉ seen := fun hin => havoid c hin 0 rfl
        apply ih q (c :: seen) (List.nodup_cons.mpr ⟨hnotin, hnd⟩)
        · intro x hx
          rcases List.mem_cons.mp hx with rfl | hx'
          · exact hcid
          · exact hsub x hx'
        · intro x hx k hk
          have hstep : iterParent gs c (k + 1) = some x := by
            rw [iterParent_succ, hnp]; exact hk
          rcases List.mem_cons.mp hx with rfl | hx'
          · obtain ⟨r, hrmem, hrid⟩ := exists_row_of_mem_cgIds gs hcid
            exact hac r hrmem k (by rw [hrid]; exact hstep)
          · exact havoid x hx' (k + 1) hstep
        · simp only [List.length_cons]
          omega

theorem findInChain_full_isSome (gs : List CGRow) (hac : AcyclicCG gs)
    (t : Option Nat) (c : Nat) :
    findInChain gs t (some c) (gs.length + 1) ≠ none :=
  findInChain_isSome_of_acyclic gs hac t (gs.length + 1) c []
    List.nodup_nil (by simp) (by simp) (by simp)

/-! ## Congruence of the walk under table updates -/

theorem nextParent_eq_none_of_not_mem (gs : List CGRow) {x : Nat}
    (h : x ∉ cgIds gs) : nextParent gs x = none := by
  unfold nextParent
  cases hfind : gs.find? (fun r => r.id == x) with
  | none => rfl
  | some r =>
    exfalso
    exact h (mem_cgIds_of_find?_isSome gs (by rw [hfind]; rfl))

theorem nextParent_setParent_ne (gs : List CGRow) (i : Nat) (p : Option Nat)
    {x : Nat} (hx : x ≠ i) :
    nextParent (setParentRows gs i p) x = nextParent gs x := by
  unfold nextParent setParentRows
  induction gs with
  | nil => rfl
  | cons r tl ih =>
    simp only [List.map_cons]
    by_cases hr : r.id = x
    · have hupd : (if r.id == i then { r with parent := p } else r) = r := by
        have hneg : (r.id == i) = false :=
          beq_false_of_ne (fun h => hx (hr ▸ h ▸ rfl))
        simp [hneg]
      have h3 : (r.id == x) = true := by simp [hr]
      rw [hupd, List.find?_cons, List.find?_cons, h3]
    · have h1 : ((if r.id == i then { r with parent := p } else r).id == x) = false := by
        by_cases hri : r.id = i
        · simp only [hri, beq_self_eq_true, if_true]
          exact beq_false_of_ne (fun h => hx h.symm)
        · have : (r.id == i) = false := beq_false_of_ne hri
          simp only [this, Bool.false_eq_true, if_false]
          exact beq_false_of_ne hr
      have h2 : (r.id == x) = false := beq_false_of_ne hr
      rw [List.find?_cons, List.find?_cons, h1, h2]
      exact ih

theorem nextParent_setParent_self (gs : List CGRow) (i : Nat) (p : Option Nat)
    (hmem : i ∈ cgIds gs) :
    nextParent (setParentRows gs i p) i = p := by
  unfold nextParent setParentRows
  induction gs with
  | nil => cases hmem
  | cons r tl ih =>
    simp only [List.map_cons]
    by_cases hr : r.id = i
    · have h3 : ((if r.id == i then { r with parent := p } else r).id == i) = true := by
        simp [hr]
      rw [List.find?_cons, h3]
      have h4 : (r.id == i) = true := by simp [hr]
      simp [h4]
    · have h1 : ((if r.id == i then { r with parent := p } else r).id == i) = false := by
        simp [beq_false_of_ne hr]
      rw [List.find?_cons, h1]
      apply ih
      rcases List.mem_map.mp hmem with ⟨r', hr', hid⟩
      rcases List.mem_cons.mp hr' with rfl | htl
      · exact absurd hid hr
      · exact hid ▸ List.mem_map_of_mem _ htl

theorem cgIds_setParent (gs : List CGRow) (i : Nat) (p : Option Nat) :
    cgIds (setParentRows gs i p) = cgIds gs := by
  unfold cgIds setParentRows
  rw [List.map_map]
  apply List.map_congr_left
  intro r _
  by_cases hr : r.id = i <;> simp [hr]

theorem nextParent_append_ne (gs : List CGRow) (row : CGRow) {x : Nat}
    (hx : x ≠ row.id) :
    nextParent (gs ++ [row]) x = nextParent gs x := by
  unfold nextParent
  rw [List.find?_append]
  cases hfind : gs.find? (fun r => r.id == x) with
  | some r => rfl
  | none =>
    have h2 : ([row].find? (fun r => r.id == x)) = none := by
      have : (row.id == x) = false := beq_false_of_ne (fun h => hx h.symm)
      rw [List.find?_cons, this]
      rfl
    rw [h2]
    rfl

theorem nextParent_append_self (gs : List CGRow) (row : CGRow)
    (hfresh : row.id ∉ cgIds gs) :
    nextParent (gs ++ [row]) row.id = row.parent := by
  unfold nextParent
  rw [List.find?_append]
  have h1 : gs.find? (fun r => r.id == row.id) = none := by
    rw [List.find?_eq_none]
    intro r hr hbeq
    exact hfresh (by
      have : r.id = row.id := by simpa using hbeq
      exact this ▸ List.mem_map_of_mem _ hr)
  have h2 : ([row].find? (fun r => r.id == row.id)) = some row := by
    simp [List.find?]
  rw [h1, h2]
  rfl

theorem cgIds_append (gs : List CGRow) (row : CGRow) :
    cgIds (gs ++ [row]) = cgIds gs ++ [row.id] := by
  unfold cgIds
  rw [List.map_append]
  rfl

/-! ## Transfer of ancestor chains between agreeing tables -/

theorem iterParent_congr_avoid (s s' : List CGRow) (A : Nat)
    (hagree : ∀ y, y ≠ A → nextParent s' y = nextParent s y) :
    ∀ (k x : Nat), (∀ j, iterParent s' x j ≠ some A) →
      iterParent s' x k = iterParent s x k := by
  intro k
  induction k with
  | zero => intro x _; rfl
  | succ k ih =>
    intro x havoid
    have hxA : x ≠ A := fun h => havoid 0 (by rw [h]; rfl)
    rw [iterParent_succ, iterParent_succ, hagree x hxA]
    cases hnp : nextParent s x with
    | none => rfl
    | some q =>
      apply ih
      intro j hj
      apply havoid (j + 1)
      rw [iterParent_succ, hagree x hxA, hnp]
      exact hj

theorem reach_transfer (s s' : List CGRow) (A : Nat)
    (hagree : ∀ y, y ≠ A → nextParent s' y = nextParent s y) :
    ∀ (j x : Nat), iterParent s' x j = some A → ∃ i, iterParent s x i = some A := by
  intro j
  induction j with
  | zero =>
    intro x h
    have : x = A := by simpa [iterParent] using h
    exact ⟨0, by rw [this]; rfl⟩
  | succ j ih =>
    intro x h
    by_cases hxA : x = A
    · exact ⟨0, by rw [hxA]; rfl⟩
    · rw [iterParent_succ, hagree x hxA] at h
      cases hnp : nextParent s x with
      | none => rw [hnp] at h; cases h
      | some q =>
        rw [hnp] at h
        obtain ⟨i, hi⟩ := ih q h
        exact ⟨i + 1, by rw [iterParent_succ, hnp]; exact hi⟩

theorem cycle_rotate (s : List CGRow) {r m j A : Nat}
    (hm : iterParent s r m = some r) (hj : iterParent s r j = some A) :
    iterParent s A m = some A := by
  have h1 : iterParent s r (m + j) = some A := by
    rw [iterParent_add, hm]
    simpa using hj
  have h2 : iterParent s r (j + m) = iterParent s A m := by
    rw [iterParent_add, hj]
    rfl
  rw [Nat.add_comm m j] at h1
  rw [h1] at h2
  exact h2.symm

/-! ## Preservation of the store invariant -/

theorem acyclic_setParent (s : List CGRow) (A : Nat) (newP : Option Nat)
    (hac : AcyclicCG s)
    (hok : ∀ P, newP = some P → ∀ k, iterParent s P k ≠ some A) :
    AcyclicCG (setParentRows s A newP) := by
  intro r' hr' k hk
  obtain ⟨r, hr, rfl⟩ := List.mem_map.mp hr'
  have hid : (if r.id == A then { r with parent := newP } else r).id = r.id := by
    split <;> rfl
  rw [hid] at hk
  have hagree : ∀ y, y ≠ A →
      nextParent (setParentRows s A newP) y = nextParent s y :=
    fun y hy => nextParent_setParent_ne s A newP hy
  by_cases hreach : ∃ j, iterParent (setParentRows s A newP) r.id j = some A
  · obtain ⟨j, hj⟩ := hreach
    have hcyc : iterParent (setParentRows s A newP) A (k + 1) = some A :=
      cycle_rotate _ hk hj
    rw [iterParent_succ] at hcyc
    by_cases hmem : A ∈ cgIds s
    · rw [nextParent_setParent_self s A newP hmem] at hcyc
      cases newP with
      | none => cases hcyc
      | some P =>
        obtain ⟨i, hi⟩ := reach_transfer s _ A hagree k P hcyc
        exact hok P rfl i hi
    · have hnone : nextParent (setParentRows s A newP) A = none := by
        apply nextParent_eq_none_of_not_mem
        rw [cgIds_setParent]
        exact hmem
      rw [hnone] at hcyc
      cases hcyc
  · push_neg at hreach
    rw [iterParent_congr_avoid s _ A hagree (k + 1) r.id hreach] at hk
    exact hac r hr k hk

theorem no_reach_new (s : List CGRow) (row : CGRow)
    (hfresh : row.id ∉ cgIds s) (hcl : ClosedParents s)
    (hp : ∀ q, row.parent = some q → q ∈ cgIds s) :
    ∀ (j x : Nat), iterParent (s ++ [row]) x j = some row.id → x = row.id ∧ j = 0 := by
  intro j
  induction j with
  | zero =>
    intro x h
    exact ⟨by simpa [iterParent] using h, rfl⟩
  | succ j ih =>
    intro x h
    exfalso
    rw [iterParent_succ] at h
    by_cases hx : x = row.id
    · rw [hx, nextParent_append_self s row hfresh] at h
      cases hq : row.parent with
      | none => rw [hq] at h; cases h
      | some q =>
        rw [hq] at h
        obtain ⟨rfl, _⟩ := ih q h
        exact hfresh (hp _ hq)
    · rw [nextParent_append_ne s row hx] at h
      cases hnp : nextParent s x with
      | none => rw [hnp] at h; cases h
      | some q =>
        rw [hnp] at h
        obtain ⟨hq, _⟩ := ih q h
        have hqmem : q ∈ cgIds s := by
          unfold nextParent at hnp
          cases hfind : s.find? (fun r => r.id == x) with
          | none => rw [hfind] at hnp; cases hnp
          | some r0 =>
            rw [hfind] at hnp
            exact hcl r0 (List.mem_of_find?_eq_some hfind) q hnp
        exact hfresh (hq ▸ hqmem)

theorem acyclic_insert (s : List CGRow) (row : CGRow)
    (hfresh : row.id ∉ cgIds s) (hcl : ClosedParents s) (hac : AcyclicCG s)
    (hp : ∀ q, row.parent = some q → q ∈ cgIds s) :
    AcyclicCG (s ++ [row]) := by
  intro r' hr' k hk
  rcases List.mem_append.mp hr' with hr | hrnew
  · by_cases hreach : ∃ j, iterParent (s ++ [row]) r'.id j = some row.id
    · obtain ⟨j, hj⟩ := hreach
      obtain ⟨heq, _⟩ := no_reach_new s row hfresh hcl hp j r'.id hj
      exact hfresh (heq ▸ List.mem_map_of_mem _ hr)
    · push_neg at hreach
      have hagree : ∀ y, y ≠ row.id →
          nextParent (s ++ [row]) y = nextParent s y :=
        fun y hy => nextParent_append_ne s row hy
      rw [iterParent_congr_avoid s _ row.id hagree (k + 1) r'.id hreach] at hk
      exact hac r' hr k hk
  · have hrow : r' = row := by simpa using hrnew
    rw [hrow] at hk
    obtain ⟨_, hk0⟩ := no_reach_new s row hfresh hcl hp (k + 1) row.id hk
    omega

theorem closed_setParent (s : List CGRow) (A : Nat) (newP : Option Nat)
    (hcl : ClosedParents s)
    (hok : ∀ P, newP = some P → P ∈ cgIds s) :
    ClosedParents (setParentRows s A newP) := by
  intro r' hr' p hp
  rw [cgIds_setParent]
  obtain ⟨r, hr, rfl⟩ := List.mem_map.mp hr'
  by_cases hid : (r.id == A) = true
  · rw [if_pos hid] at hp
    exact hok p hp
  · rw [if_neg hid] at hp
    exact hcl r hr p hp

theorem closed_insert (s : List CGRow) (row : CGRow)
    (hcl : ClosedParents s)
    (hp : ∀ q, row.parent = some q → q ∈ cgIds s) :
    ClosedParents (s ++ [row]) := by
  intro r' hr' p hpar
  rw [cgIds_append]
  rcases List.mem_append.mp hr' with hr | hrnew
  · exact List.mem_append.mpr (Or.inl (hcl r' hr p hpar))
  · have hrow : r' = row := by simpa using hrnew
    subst hrow
    exact List.mem_append.mpr (Or.inl (hp p hpar))

theorem cginv_setParent (s : List CGRow) (A : Nat) (newP : Option Nat)
    (hinv : CGInv s)
    (hok : ∀ P, newP = some P → P ∈ cgIds s ∧ ∀ k, iterParent s P k ≠ some A) :
    CGInv (setParentRows s A newP) := by
  obtain ⟨hnd, hcl, hac⟩ := hinv
  refine ⟨?_, ?_, ?_⟩
  · rw [cgIds_setParent]; exact hnd
  · exact closed_setParent s A newP hcl (fun P hP => (hok P hP).1)
  · exact acyclic_setParent s A newP hac (fun P hP => (hok P hP).2)

theorem cginv_insert (s : List CGRow) (row : CGRow)
    (hfresh : row.id ∉ cgIds s) (hinv : CGInv s)
    (hp : ∀ q, row.parent = some q → q ∈ cgIds s) :
    CGInv (s ++ [row]) := by
  obtain ⟨hnd, hcl, hac⟩ := hinv
  refine ⟨?_, ?_, ?_⟩
  · rw [cgIds_append]
    exact List.Nodup.append hnd (List.nodup_singleton _)
      (by intro x hx hx'; simp at hx'; exact hfresh (hx' ▸ hx))
  · exact closed_insert s row hcl hp
  · exact acyclic_insert s row hfresh hcl hac hp

/-! ## Facts about the repository functions on the connection-group table -/

theorem find?_id_of_nodup (gs : List CGRow) (r : CGRow)
    (hnd : (cgIds gs).Nodup) (hr : r ∈ gs) :
    gs.find? (fun x => x.id == r.id) = some r := by
  induction gs with
  | nil => cases hr
  | cons a tl ih =>
    rcases List.mem_cons.mp hr with rfl | htl
    · rw [List.find?_cons]
      simp
    · have hnd' : (cgIds tl).Nodup := by
        unfold cgIds at hnd ⊢
        exact (List.nodup_cons.mp hnd).2
      have hane : a.id ≠ r.id := by
        intro h
        have : a.id ∉ cgIds tl := by
          unfold cgIds at hnd ⊢
          exact (List.nodup_cons.mp hnd).1
        exact this (h ▸ List.mem_map_of_mem _ htl)
      rw [List.find?_cons, beq_false_of_ne hane]
      exact ih hnd' htl

theorem mem_of_find?_name (gs : List CGRow) {n : String} {r : CGRow}
    (h : gs.find? (fun x => x.name == n) = some r) : r ∈ gs ∧ r.name = n := by
  refine ⟨List.mem_of_find?_eq_some h, ?_⟩
  have := List.find?_some h
  simpa using this

theorem createCGInsert_eq (gs : List CGRow) (n : String) (newId : Nat)
    (pid : Option Nat) :
    createCGInsert gs n newId pid = .ok (gs ++ [⟨newId, n, pid⟩]) := by
  unfold createCGInsert
  cases hfind : (gs ++ [(⟨newId, n, pid⟩ : CGRow)]).find? (fun r => r.name == n) with
  | none =>
    exfalso
    rw [List.find?_eq_none] at hfind
    have hmem : (⟨newId, n, pid⟩ : CGRow) ∈ gs ++ [(⟨newId, n, pid⟩ : CGRow)] :=
      List.mem_append.mpr (Or.inr (by simp))
    exact absurd (rfl : n = n) (fun _ => by simpa using hfind _ hmem)
  | some v => rfl

theorem foldr_max_le (gs : List CGRow) (r : CGRow) (hr : r ∈ gs) :
    r.id ≤ gs.foldr (fun r m => max r.id m) 0 := by
  induction gs with
  | nil => cases hr
  | cons a tl ih =>
    rcases List.mem_cons.mp hr with rfl | htl
    · exact le_max_left _ _
    · exact le_trans (ih htl) (le_max_right _ _)

theorem freshCGId_not_mem (gs : List CGRow) : freshCGId gs ∉ cgIds gs := by
  intro hmem
  obtain ⟨r, hr, hid⟩ := List.mem_map.mp hmem
  have := foldr_max_le gs r hr
  unfold freshCGId at hid
  omega

theorem row_eq_of_id_eq (gs : List CGRow) (hnd : (cgIds gs).Nodup)
    {r r' : CGRow} (hr : r ∈ gs) (hr' : r' ∈ gs) (hid : r.id = r'.id) : r = r' := by
  have h1 := find?_id_of_nodup gs r hnd hr
  have h2 := find?_id_of_nodup gs r' hnd hr'
  rw [hid] at h1
  rw [h1] at h2
  exact Option.some.inj h2

theorem nextParent_of_mem_nodup (gs : List CGRow) (hnd : (cgIds gs).Nodup)
    {r : CGRow} (hr : r ∈ gs) : nextParent gs r.id = r.parent := by
  unfold nextParent
  rw [find?_id_of_nodup gs r hnd hr]

theorem cgChangedCount_self (gs : List CGRow) (hnd : (cgIds gs).Nodup)
    {aRow : CGRow} (hmem : aRow ∈ gs) :
    cgChangedCount gs aRow.id aRow.parent = 0 := by
  unfold cgChangedCount
  rw [List.length_eq_zero, List.filter_eq_nil_iff]
  intro r hr
  by_cases hid : r.id = aRow.id
  · have heq : r = aRow := row_eq_of_id_eq gs hnd hr hmem hid
    simp [heq]
  · simp [beq_false_of_ne hid]

theorem cgDoUpdate_ok (gs : List CGRow) (rid : Nat) (dn : String)
    (np : Option Nat) (gs' : List CGRow)
    (h : cgDoUpdate gs rid dn np = some (.ok gs')) :
    gs' = setParentRows gs rid np := by
  unfold cgDoUpdate at h
  split at h
  · simp at h
  · simp only [Option.some.injEq, Except.ok.injEq] at h
    exact h.symm

theorem modifyCGTail_ok (gs : List CGRow) (rid : Nat) (dn : String)
    (pn : Option String) (gs' : List CGRow) (hinv : CGInv gs)
    (h : modifyCGTail gs rid dn pn = some (.ok gs')) :
    CGInv gs' := by
  have hnoparent : cgDoUpdate gs rid dn none = some (.ok gs') → CGInv gs' := by
    intro hh
    rw [cgDoUpdate_ok gs rid dn none gs' hh]
    exact cginv_setParent gs rid none hinv (fun P hP => by cases hP)
  unfold modifyCGTail at h
  rcases pn with _ | pn
  · exact hnoparent h
  · simp only [] at h
    split at h
    · exact hnoparent h
    · cases hfind : gs.find? (fun r => r.name == pn) with
      | none => rw [hfind] at h; simp at h
      | some prow =>
        rw [hfind] at h
        simp only [] at h
        cases hcyc : checkConnectionGroupCycle gs (some rid) (some prow.id)
            (gs.length + 1) with
        | none => rw [hcyc] at h; simp at h
        | some b =>
          rw [hcyc] at h
          cases b with
          | true => simp at h
          | false =>
            simp only [] at h
            rw [cgDoUpdate_ok gs rid dn (some prow.id) gs' h]
            apply cginv_setParent gs rid (some prow.id) hinv
            intro P hP
            cases hP
            constructor
            · exact List.mem_map_of_mem _ (List.mem_of_find?_eq_some hfind)
            · unfold checkConnectionGroupCycle at hcyc
              exact not_iter_of_findInChain_false gs rid prow.id (gs.length + 1) hcyc

theorem modifyCG_ok_inv (gs : List CGRow) (gn : Option String) (gi : Option Nat)
    (pn : Option String) (gs' : List CGRow) (hinv : CGInv gs)
    (h : modifyConnectionGroupParent gs gn gi pn = some (.ok gs')) : CGInv gs' := by
  unfold modifyConnectionGroupParent at h
  split at h
  · simp at h
  · rcases gi with _ | i
    · rcases gn with _ | n
      · simp at h
      · simp only [] at h
        cases hfind : gs.find? (fun r => r.name == n) with
        | none => rw [hfind] at h; simp at h
        | some row =>
          rw [hfind] at h
          simp only [] at h
          exact modifyCGTail_ok gs row.id n pn gs' hinv h
    · simp only [] at h
      cases hfind : gs.find? (fun r => r.id == i) with
      | none => rw [hfind] at h; simp at h
      | some row =>
        rw [hfind] at h
        simp only [] at h
        exact modifyCGTail_ok gs i row.name pn gs' hinv h

theorem createCG_ok_inv (gs : List CGRow) (n : String) (pn : Option String)
    (newId : Nat) (gs' : List CGRow) (hinv : CGInv gs)
    (hfresh : newId ∉ cgIds gs)
    (h : createConnectionGroup gs n pn newId = some (.ok gs')) : CGInv gs' := by
  have hins : ∀ (pid : Option Nat), (∀ q, pid = some q → q ∈ cgIds gs) →
      some (createCGInsert gs n newId pid) = some (.ok gs') → CGInv gs' := by
    intro pid hpid hh
    rw [createCGInsert_eq] at hh
    simp only [Option.some.injEq, Except.ok.injEq] at hh
    rw [← hh]
    exact cginv_insert gs ⟨newId, n, pid⟩ hfresh hinv hpid
  unfold createConnectionGroup at h
  rcases pn with _ | pn
  · exact hins none (fun q hq => by cases hq) h
  · simp only [] at h
    split at h
    · exact hins none (fun q hq => by cases hq) h
    · cases hfind : gs.find? (fun r => r.name == pn) with
      | none => rw [hfind] at h; simp at h
      | some prow =>
        rw [hfind] at h
        simp only [] at h
        cases hcyc : checkConnectionGroupCycle gs none (some prow.id)
            (gs.length + 1) with
        | none => rw [hcyc] at h; simp at h
        | some b =>
          rw [hcyc] at h
          cases b with
          | true => simp at h
          | false =>
            simp only [] at h
            exact hins (some prow.id) (fun q hq => by
              cases hq
              exact List.mem_map_of_mem _ (List.mem_of_find?_eq_some hfind)) h

theorem stepCG_ok_inv (gs gs' : List CGRow) (op : CGOp) (hinv : CGInv gs)
    (h : stepCG gs op = some (.ok gs')) : CGInv gs' := by
  cases op with
  | create n pn => exact createCG_ok_inv gs n pn _ gs' hinv (freshCGId_not_mem gs) h
  | reparent gn gi pn => exact modifyCG_ok_inv gs gn gi pn gs' hinv h

theorem runCGOps_inv (ops : List CGOp) : ∀ (gs gs' : List CGRow), CGInv gs →
    runCGOps gs ops = some gs' → CGInv gs' := by
  induction ops with
  | nil =>
    intro gs gs' hinv h
    unfold runCGOps at h
    cases h
    exact hinv
  | cons op rest ih =>
    intro gs gs' hinv h
    unfold runCGOps at h
    cases hstep : stepCG gs op with
    | none => rw [hstep] at h; cases h
    | some r =>
      rw [hstep] at h
      cases r with
      | error e => exact ih gs gs' hinv h
      | ok gs2 => exact ih gs2 gs' (stepCG_ok_inv gs gs2 op hinv hstep) h

theorem modifyCG_name_path (gs : List CGRow) (an : String) (pn : Option String)
    {aRow : CGRow} (hfind : gs.find? (fun r => r.name == an) = some aRow) :
    modifyConnectionGroupParent gs (some an) none pn =
      modifyCGTail gs aRow.id an pn := by
  unfold modifyConnectionGroupParent
  rw [if_neg (by simp)]
  simp only []
  rw [hfind]

theorem exists_iter_of_findInChain_true (gs : List CGRow) (a : Nat) :
    ∀ (f p : Nat), findInChain gs (some a) (some p) f = some true →
      ∃ k, iterParent gs p k = some a := by
  intro f
  induction f with
  | zero =>
    intro p h
    rw [findInChain_some_unfold] at h
    split at h
    · next hc => exact ⟨0, by simpa [iterParent] using hc⟩
    · simp only [] at h
      cases h
  | succ f ih =>
    intro p h
    rw [findInChain_some_unfold] at h
    split at h
    · next hc => exact ⟨0, by simpa [iterParent] using hc⟩
    · simp only [] at h
      cases hnp : nextParent gs p with
      | none => rw [hnp] at h; simp [findInChain] at h
      | some q =>
        rw [hnp] at h
        obtain ⟨k, hk⟩ := ih q h
        exact ⟨k + 1, by rw [iterParent_succ, hnp]; exact hk⟩

/-! ## C1: cycle rejection and acyclicity -/

theorem demoCG_inv : CGInv demoCG := by
  refine ⟨by decide, ?_, ?_⟩
  · intro r hr p hp
    simp only [demoCG, List.mem_cons, List.not_mem_nil, or_false] at hr
    rcases hr with rfl | rfl
    · cases hp
    · cases hp
      decide
  · intro r hr k hk
    simp only [demoCG, List.mem_cons, List.not_mem_nil, or_false] at hr
    rcases hr with rfl | rfl
    · have hk' : iterParent demoCG 1 (k + 1) = some 1 := hk
      rw [iterParent_succ] at hk'
      have h1 : nextParent demoCG 1 = none := rfl
      rw [h1] at hk'
      cases hk'
    · have hk' : iterParent demoCG 2 (k + 1) = some 2 := hk
      rw [iterParent_succ] at hk'
      have h2 : nextParent demoCG 2 = some 1 := rfl
      rw [h2] at hk'
      cases k with
      | zero => cases hk'
      | succ k' =>
        simp only [] at hk'
        rw [iterParent_succ] at hk'
        have h1 : nextParent demoCG 1 = none := rfl
        rw [h1] at hk'
        cases hk'

/-- C1: if the requested new parent of a connection group resolves to the
group itself or to one of its descendants (the group's id occurs on the
proposed parent's ancestor chain), `modify_connection_group_parent` raises
the cycle error (the spec taxonomy's `ConflictError`; a `ValueError` with
the cycle message in the source) before executing any UPDATE, and the
transaction leaves every parent pointer unchanged (the one-operation run
returns the original table); moreover, for every sequence of create and
reparent operations started from a store satisfying the invariant
(unique ids, referentially intact parent pointers, acyclic), the resulting
ConnectionGroup parent relation is acyclic. -/
theorem conngroup_cycle_rejection_and_acyclicity :
    (∀ (gs : List CGRow) (an pn : String) (aRow pRow : CGRow),
      CGInv gs → pn ≠ "" →
      gs.find? (fun r => r.name == an) = some aRow →
      gs.find? (fun r => r.name == pn) = some pRow →
      (∃ k, iterParent gs pRow.id k = some aRow.id) →
      modifyConnectionGroupParent gs (some an) none (some pn) =
        some (.error (.valueError "Setting parent would create a cycle in connection groups"))
      ∧ runCGOps gs [CGOp.reparent (some an) none (some pn)] = some gs)
  ∧ (∀ (gs : List CGRow) (ops : List CGOp) (gs' : List CGRow),
      CGInv gs → runCGOps gs ops = some gs' → AcyclicCG gs') := by
  constructor
  · intro gs an pn aRow pRow hinv hpn hfA hfP hdesc
    have hmod : modifyConnectionGroupParent gs (some an) none (some pn) =
        some (.error (.valueError "Setting parent would create a cycle in connection groups")) := by
      rw [modifyCG_name_path gs an (some pn) hfA]
      unfold modifyCGTail
      simp only []
      rw [if_neg (by simp only [beq_iff_eq]; exact hpn)]
      rw [hfP]
      simp only []
      have hcyc : checkConnectionGroupCycle gs (some aRow.id) (some pRow.id)
          (gs.length + 1) = some true := by
        unfold checkConnectionGroupCycle
        simp only []
        cases hres : findInChain gs (some aRow.id) (some pRow.id) (gs.length + 1) with
        | none => exact absurd hres (findInChain_full_isSome gs hinv.2.2 _ _)
        | some b =>
          cases b with
          | true => rfl
          | false =>
            obtain ⟨k, hk⟩ := hdesc
            exact absurd hk (not_iter_of_findInChain_false gs aRow.id pRow.id _ hres k)
      rw [hcyc]
    refine ⟨hmod, ?_⟩
    unfold runCGOps stepCG
    simp only []
    rw [hmod]
    rfl
  · intro gs ops gs' hinv hrun
    exact (runCGOps_inv ops gs gs' hinv hrun).2.2

/-- Witness for C1 at a concrete two-group store: reparenting `ops` under
its child `prod` is rejected with the cycle error and changes nothing,
and a run of operations preserves acyclicity. -/
theorem conngroup_cycle_rejection_and_acyclicity_witness :
    (modifyConnectionGroupParent demoCG (some "ops") none (some "prod") =
      some (.error (.valueError "Setting parent would create a cycle in connection groups"))
     ∧ runCGOps demoCG [CGOp.reparent (some "ops") none (some "prod")] = some demoCG)
    ∧ AcyclicCG demoCG := by
  constructor
  · exact conngroup_cycle_rejection_and_acyclicity.1 demoCG "ops" "prod"
      ⟨1, "ops", none⟩ ⟨2, "prod", some 1⟩ demoCG_inv (by decide) rfl rfl
      ⟨1, rfl⟩
  · exact conngroup_cycle_rejection_and_acyclicity.2 demoCG [] demoCG demoCG_inv rfl

/-! ## C8: no-op reparents are rejected -/

/-- C8: when the requested new parent of an existing connection group equals
its current parent (including the root-to-root case), the guarded UPDATE of
`modify_connection_group_parent` changes no row, `cursor.rowcount` is 0, and
the function raises an error instead of succeeding silently — "already true"
is thereby distinguished from "successfully changed". -/
theorem reparent_noop_rejected (gs : List CGRow) (an : String) (aRow : CGRow)
    (pn : Option String) (hinv : CGInv gs)
    (hfA : gs.find? (fun r => r.name == an) = some aRow)
    (hsame : (aRow.parent = none ∧ (pn = none ∨ pn = some "")) ∨
      (∃ p pname prow, aRow.parent = some p ∧ pn = some pname ∧ pname ≠ "" ∧
        gs.find? (fun r => r.name == pname) = some prow ∧ prow.id = p)) :
    modifyConnectionGroupParent gs (some an) none pn =
      some (.error (.valueError s!"Failed to update parent group for '{an}'")) := by
  rw [modifyCG_name_path gs an pn hfA]
  have hmemA : aRow ∈ gs := List.mem_of_find?_eq_some hfA
  have h0 : cgChangedCount gs aRow.id aRow.parent = 0 :=
    cgChangedCount_self gs hinv.1 hmemA
  have hdu : cgDoUpdate gs aRow.id an aRow.parent =
      some (.error (.valueError s!"Failed to update parent group for '{an}'")) := by
    unfold cgDoUpdate
    rw [h0]
    rfl
  rcases hsame with ⟨hpar, hpn⟩ | ⟨p, pname, prow, hpar, hpn, hne, hfP, hpid⟩
  · rw [hpar] at hdu
    rcases hpn with rfl | rfl
    · unfold modifyCGTail
      exact hdu
    · unfold modifyCGTail
      simp only []
      exact hdu
  · subst hpn
    unfold modifyCGTail
    simp only []
    rw [if_neg (by simp only [beq_iff_eq]; exact hne)]
    rw [hfP]
    simp only []
    have hcyc : checkConnectionGroupCycle gs (some aRow.id) (some prow.id)
        (gs.length + 1) = some false := by
      unfold checkConnectionGroupCycle
      simp only []
      cases hres : findInChain gs (some aRow.id) (some prow.id) (gs.length + 1) with
      | none => exact absurd hres (findInChain_full_isSome gs hinv.2.2 _ _)
      | some b =>
        cases b with
        | false => rfl
        | true =>
          exfalso
          obtain ⟨k, hk⟩ := exists_iter_of_findInChain_true gs aRow.id _ prow.id hres
          have hcycle : iterParent gs aRow.id (k + 1) = some aRow.id := by
            rw [iterParent_succ, nextParent_of_mem_nodup gs hinv.1 hmemA, hpar,
              ← hpid]
            exact hk
          exact hinv.2.2 aRow hmemA k hcycle
    rw [hcyc]
    simp only []
    rw [hpid, ← hpar]
    exact hdu

/-- Witness for C8: reparenting `prod` under `ops`, its current parent,
raises the failed-update error. -/
theorem reparent_noop_rejected_witness :
    modifyConnectionGroupParent demoCG (some "prod") none (some "ops") =
      some (.error (.valueError "Failed to update parent group for 'prod'")) :=
  reparent_noop_rejected demoCG "prod" ⟨2, "prod", some 1⟩ (some "ops") demoCG_inv
    rfl (Or.inr ⟨1, "ops", ⟨1, "ops", none⟩, rfl, rfl, by decide, rfl, rfl⟩)

/-! ## C2: the delete_user cascade -/

/-- C2 (evaluation at the failing input): for the user `alice`, who holds a
user-group permission, a group membership, a connection permission and a
connection-group permission, `delete_user` removes her user-group
permission rows, memberships, connection permission rows, user row and
entity row — but it never touches `guacamole_connection_group_permission`,
so the permission-edge row `(1, 30, READ)` referencing her deleted
surrogate id 1 remains in the store. -/
theorem delete_user_leaves_conngroup_permission :
    deleteUser dbC2 "alice" =
      .ok { dbC2 with
        entities := [⟨2, "devs", EType.userGroup⟩],
        users := [],
        members := [],
        ugPerms := [],
        connPerms := [] }
    ∧ ({ dbC2 with
        entities := [⟨2, "devs", EType.userGroup⟩],
        users := [],
        members := [],
        ugPerms := [],
        connPerms := [] } : Db).cgPerms = [⟨1, 30, "READ"⟩] :=
  ⟨rfl, rfl⟩

/-! ## C3: the entity-resolver contract -/

/-- C3: `_resolve_entity_id` raises `ValidationError` when both or neither
of name/id are supplied; a supplied id must be positive (`ValidationError`
otherwise), is verified to exist (`EntityNotFoundError` when it does not)
and is returned unchanged; a nonexistent name raises `EntityNotFoundError`;
and an existing name resolves to exactly the id a direct lookup of that
name returns. -/
theorem resolver_contract :
    (∀ (rows : List IdNameRow) (et : String),
      ∃ m, resolveEntityId rows none none et = .error (.validationError m)) ∧
    (∀ (rows : List IdNameRow) (et n : String) (v : Int),
      ∃ m, resolveEntityId rows (some n) (some v) et = .error (.validationError m)) ∧
    (∀ (rows : List IdNameRow) (et : String) (v : Int), v ≤ 0 →
      ∃ m, resolveEntityId rows none (some v) et = .error (.validationError m)) ∧
    (∀ (rows : List IdNameRow) (et : String) (v : Int), 0 < v →
      rows.find? (fun r => r.id == v) = none →
      resolveEntityId rows none (some v) et = .error (.entityNotFound et (toString v))) ∧
    (∀ (rows : List IdNameRow) (et : String) (v : Int) (r : IdNameRow), 0 < v →
      rows.find? (fun r => r.id == v) = some r →
      resolveEntityId rows none (some v) et = .ok v) ∧
    (∀ (rows : List IdNameRow) (et n : String),
      rows.find? (fun r => r.name == n) = none →
      resolveEntityId rows (some n) none et = .error (.entityNotFound et n)) ∧
    (∀ (rows : List IdNameRow) (et n : String) (i : Int),
      directNameLookup rows n = some i →
      resolveEntityId rows (some n) none et = .ok i) := by
  refine ⟨?_, ?_, ?_, ?_, ?_, ?_, ?_⟩
  · intro rows et
    exact ⟨_, rfl⟩
  · intro rows et n v
    exact ⟨_, rfl⟩
  · intro rows et v hv
    unfold resolveEntityId
    rw [if_neg (by simp)]
    simp only []
    rw [if_pos (by simpa using hv)]
    exact ⟨_, rfl⟩
  · intro rows et v hv hfind
    unfold resolveEntityId
    rw [if_neg (by simp)]
    simp only []
    rw [if_neg (by omega)]
    rw [hfind]
  · intro rows et v r hv hfind
    unfold resolveEntityId
    rw [if_neg (by simp)]
    simp only []
    rw [if_neg (by omega)]
    rw [hfind]
  · intro rows et n hfind
    unfold resolveEntityId
    rw [if_neg (by simp)]
    simp only []
    rw [hfind]
  · intro rows et n i hlook
    unfold directNameLookup at hlook
    unfold resolveEntityId
    rw [if_neg (by simp)]
    simp only []
    cases hfind : rows.find? (fun r => r.name == n) with
    | none => rw [hfind] at hlook; cases hlook
    | some r =>
      rw [hfind] at hlook
      simp at hlook
      simp only []
      rw [hlook]

/-- Witness for C3 on a concrete two-row table. -/
theorem resolver_contract_witness :
    (∃ m, resolveEntityId demoRows none none "User" = .error (.validationError m)) ∧
    resolveEntityId demoRows none (some 5) "User" = .ok 5 ∧
    resolveEntityId demoRows (some "bob") none "User" = .ok 7 ∧
    resolveEntityId demoRows (some "carol") none "User" =
      .error (.entityNotFound "User" "carol") := by
  refine ⟨resolver_contract.1 demoRows "User", ?_, ?_, ?_⟩
  · exact resolver_contract.2.2.2.2.1 demoRows "User" 5 ⟨5, "alice"⟩ (by decide) rfl
  · exact resolver_contract.2.2.2.2.2.2 demoRows "User" "bob" 7 rfl
  · exact resolver_contract.2.2.2.2.2.1 demoRows "User" "carol" rfl

/-! ## C4: the duplicate-grant check -/

/-- C4 counterexample: `alice` holds an existing `UPDATE`-level permission
edge on connection `srv`, a level different from READ, so by the claim the
grant should update the edge's level to READ in place and succeed; instead
`grant_connection_permission_to_user` raises the permission-exists error —
its existence check ignores the level, and the function has no in-place
upgrade path. -/
theorem grant_connection_no_upgrade_counterexample :
    grantConnectionPermissionToUser dbC4 "alice" "srv" =
      .error (.valueError "User 'alice' already has permission for connection 'srv'") := rfl

/-- C4 (amended): the connection-level grant raises the permission-exists
error whenever any edge on the (principal, connection) pair exists,
regardless of its level, and inserts a READ edge only when none exists
(never a silent no-op or duplicate); the in-place upgrade applies only to
the connection-group grant, which raises when the existing edge's level is
READ and updates the edge to READ in place when its level is anything
else. -/
theorem grant_exists_check_and_upgrade :
    (∀ (db : Db) (u cn : String) (c : ConnRow) (ue : EntityRow),
      db.conns.find? (fun x => x.name == cn) = some c →
      db.entities.find? (fun e => e.name == u && e.etype == EType.user) = some ue →
      ((db.connPerms.any (fun p => p.entityId == ue.id && p.connectionId == c.id)) = true →
        grantConnectionPermissionToUser db u cn =
          .error (.valueError s!"User '{u}' already has permission for connection '{cn}'")) ∧
      ((db.connPerms.any (fun p => p.entityId == ue.id && p.connectionId == c.id)) = false →
        grantConnectionPermissionToUser db u cn =
          .ok { db with connPerms := db.connPerms ++ [⟨ue.id, c.id, "READ"⟩] })) ∧
    (∀ (db : Db) (u gn : String) (g : CGRow) (ue : EntityRow),
      u ≠ "" → gn ≠ "" →
      db.connGroups.find? (fun x => x.name == gn) = some g →
      db.entities.find? (fun e => e.name == u && e.etype == EType.user) = some ue →
      (∀ ex, db.cgPerms.find?
          (fun p => p.entityId == ue.id && p.connectionGroupId == g.id) = some ex →
        (ex.permission = "READ" →
          grantConnectionGroupPermissionToUser db u gn =
            .error (.permissionError
              s!"User '{u}' already has permission for connection group '{gn}'")) ∧
        (ex.permission ≠ "READ" →
          grantConnectionGroupPermissionToUser db u gn =
            .ok { db with cgPerms := db.cgPerms.map (fun p =>
              if p.entityId == ue.id && p.connectionGroupId == g.id then
                { p with permission := "READ" }
              else p) })) ∧
      (db.cgPerms.find?
          (fun p => p.entityId == ue.id && p.connectionGroupId == g.id) = none →
        grantConnectionGroupPermissionToUser db u gn =
          .ok { db with cgPerms := db.cgPerms ++ [⟨ue.id, g.id, "READ"⟩] })) := by
  constructor
  · intro db u cn c ue hc hue
    constructor
    · intro hany
      unfold grantConnectionPermissionToUser
      rw [hc]
      simp only []
      rw [hue]
      simp only []
      rw [if_pos hany]
    · intro hany
      unfold grantConnectionPermissionToUser
      rw [hc]
      simp only []
      rw [hue]
      simp only []
      rw [if_neg (by simp [hany])]
  · intro db u gn g ue hu hgn hg hue
    have hopen : grantConnectionGroupPermissionToUser db u gn =
        (match db.cgPerms.find?
            (fun p => p.entityId == ue.id && p.connectionGroupId == g.id) with
         | some existing =>
           if existing.permission == "READ" then
             .error (.permissionError
               s!"User '{u}' already has permission for connection group '{gn}'")
           else
             .ok { db with cgPerms := db.cgPerms.map (fun p =>
               if p.entityId == ue.id && p.connectionGroupId == g.id then
                 { p with permission := "READ" }
               else p) }
         | none =>
           .ok { db with cgPerms := db.cgPerms ++ [⟨ue.id, g.id, "READ"⟩] }) := by
      unfold grantConnectionGroupPermissionToUser
      rw [if_neg (by simp only [beq_iff_eq]; exact hu)]
      rw [if_neg (by simp only [beq_iff_eq]; exact hgn)]
      rw [hg]
      simp only []
      rw [hue]
    constructor
    · intro ex hex
      rw [hopen, hex]
      constructor
      · intro hread
        simp only []
        rw [if_pos (by simp [hread])]
      · intro hne
        simp only []
        rw [if_neg (by simp only [beq_iff_eq]; exact hne)]
    · intro hnone
      rw [hopen, hnone]

/-- Witness for C4 (amended) at a concrete store: the connection grant
raises on an existing UPDATE-level edge, and the connection-group grant
upgrades an existing ADMINISTER-level edge to READ in place. -/
theorem grant_exists_check_and_upgrade_witness :
    grantConnectionPermissionToUser dbC4 "alice" "srv" =
      .error (.valueError "User 'alice' already has permission for connection 'srv'") ∧
    grantConnectionGroupPermissionToUser dbC4 "alice" "grp" =
      .ok { dbC4 with cgPerms := [⟨1, 30, "READ"⟩] } := by
  constructor
  · exact ((grant_exists_check_and_upgrade.1 dbC4 "alice" "srv" ⟨20, "srv", none⟩
      ⟨1, "alice", EType.user⟩ rfl rfl).1 rfl)
  · have h := ((grant_exists_check_and_upgrade.2 dbC4 "alice" "grp" ⟨30, "grp", none⟩
      ⟨1, "alice", EType.user⟩ (by decide) (by decide) rfl rfl).1
      ⟨1, 30, "ADMINISTER"⟩ rfl).2 (by decide)
    exact h

/-! ## C5: the revoke mirror -/

/-- C5 counterexample: `alice` holds the READ edge on connection `srv`,
the existence check passes, and a concurrent actor removes the edge before
the DELETE (`raceDrop = true`), so the DELETE affects zero rows; the claim
requires the operation to raise in that case, but
`revoke_connection_permission_from_user` has no rowcount verification and
silently returns success. -/
theorem revoke_connection_no_rowcount_counterexample :
    revokeConnectionPermissionFromUser dbC5 "alice" "srv" true =
      .ok { dbC5 with connPerms := [] } := rfl

/-- C5 (amended): both revokes raise not-found errors for a missing
principal or resource and a permission-not-found error (with a message
distinct from the resolver failures) when no edge exists on the pair, and
delete the edge otherwise; but only the connection-group revoke verifies
that its `DELETE ... LIMIT 1` affected a row, raising on a zero-row
delete, while the connection revoke deletes the pair's rows without any
rowcount verification and succeeds even when the delete affected zero
rows. -/
theorem revoke_checks_and_rowcount :
    (∀ (db : Db) (u cn : String) (race : Bool),
      db.conns.find? (fun x => x.name == cn) = none →
      revokeConnectionPermissionFromUser db u cn race =
        .error (.valueError s!"Connection '{cn}' not found")) ∧
    (∀ (db : Db) (u cn : String) (race : Bool) (c : ConnRow),
      db.conns.find? (fun x => x.name == cn) = some c →
      db.entities.find? (fun e => e.name == u && e.etype == EType.user) = none →
      revokeConnectionPermissionFromUser db u cn race =
        .error (.valueError s!"User '{u}' not found")) ∧
    (∀ (db : Db) (u cn : String) (race : Bool) (c : ConnRow) (ue : EntityRow),
      db.conns.find? (fun x => x.name == cn) = some c →
      db.entities.find? (fun e => e.name == u && e.etype == EType.user) = some ue →
      (db.connPerms.any (fun p => p.entityId == ue.id && p.connectionId == c.id)) = false →
      revokeConnectionPermissionFromUser db u cn race =
        .error (.valueError s!"User '{u}' does not have permission for connection '{cn}'")) ∧
    (∀ (db : Db) (u cn : String) (c : ConnRow) (ue : EntityRow),
      db.conns.find? (fun x => x.name == cn) = some c →
      db.entities.find? (fun e => e.name == u && e.etype == EType.user) = some ue →
      (db.connPerms.any (fun p => p.entityId == ue.id && p.connectionId == c.id)) = true →
      revokeConnectionPermissionFromUser db u cn false =
        .ok { db with connPerms := (db.connPerms.filter
          (fun p => !(p.entityId == ue.id && p.connectionId == c.id))) }) ∧
    (∀ (db : Db) (u cn : String) (c : ConnRow) (ue : EntityRow),
      db.conns.find? (fun x => x.name == cn) = some c →
      db.entities.find? (fun e => e.name == u && e.etype == EType.user) = some ue →
      (db.connPerms.any (fun p => p.entityId == ue.id && p.connectionId == c.id)) = true →
      ∃ db2, revokeConnectionPermissionFromUser db u cn true = .ok db2) ∧
    (∀ (db : Db) (u gn : String) (race : Bool), u ≠ "" → gn ≠ "" →
      db.connGroups.find? (fun x => x.name == gn) = none →
      revokeConnectionGroupPermissionFromUser db u gn race =
        .error (.entityNotFound "connection group" gn)) ∧
    (∀ (db : Db) (u gn : String) (race : Bool) (g : CGRow), u ≠ "" → gn ≠ "" →
      db.connGroups.find? (fun x => x.name == gn) = some g →
      db.entities.find? (fun e => e.name == u && e.etype == EType.user) = none →
      revokeConnectionGroupPermissionFromUser db u gn race =
        .error (.entityNotFound "user" u)) ∧
    (∀ (db : Db) (u gn : String) (race : Bool) (g : CGRow) (ue : EntityRow),
      u ≠ "" → gn ≠ "" →
      db.connGroups.find? (fun x => x.name == gn) = some g →
      db.entities.find? (fun e => e.name == u && e.etype == EType.user) = some ue →
      db.cgPerms.find? (fun p => p.entityId == ue.id && p.connectionGroupId == g.id) = none →
      revokeConnectionGroupPermissionFromUser db u gn race =
        .error (.permissionError
          s!"User '{u}' has no permission for connection group '{gn}'")) ∧
    (∀ (db : Db) (u gn : String) (g : CGRow) (ue : EntityRow) (ex : CGPermRow),
      u ≠ "" → gn ≠ "" →
      db.connGroups.find? (fun x => x.name == gn) = some g →
      db.entities.find? (fun e => e.name == u && e.etype == EType.user) = some ue →
      db.cgPerms.find? (fun p => p.entityId == ue.id && p.connectionGroupId == g.id) = some ex →
      revokeConnectionGroupPermissionFromUser db u gn false =
        .ok { db with cgPerms := eraseFirstCGPerm db.cgPerms ue.id g.id }) ∧
    (∀ (db : Db) (u gn : String) (g : CGRow) (ue : EntityRow) (ex : CGPermRow),
      u ≠ "" → gn ≠ "" →
      db.connGroups.find? (fun x => x.name == gn) = some g →
      db.entities.find? (fun e => e.name == u && e.etype == EType.user) = some ue →
      db.cgPerms.find? (fun p => p.entityId == ue.id && p.connectionGroupId == g.id) = some ex →
      revokeConnectionGroupPermissionFromUser db u gn true =
        .error (.permissionError
          "Failed to revoke permission - no rows affected. Permission may have been removed by another operation.")) := by
  have hcgopen : ∀ (db : Db) (u gn : String) (race : Bool), u ≠ "" → gn ≠ "" →
      revokeConnectionGroupPermissionFromUser db u gn race =
        (match db.connGroups.find? (fun x => x.name == gn) with
         | none => .error (.entityNotFound "connection group" gn)
         | some g =>
           match db.entities.find? (fun e => e.name == u && e.etype == EType.user) with
           | none => .error (.entityNotFound "user" u)
           | some ue =>
             match db.cgPerms.find?
                 (fun p => p.entityId == ue.id && p.connectionGroupId == g.id) with
             | none => .error (.permissionError
                 s!"User '{u}' has no permission for connection group '{gn}'")
             | some _ =>
               let atDelete := if race then
                   db.cgPerms.filter (fun p =>
                     !(p.entityId == ue.id && p.connectionGroupId == g.id))
                 else db.cgPerms
               let rowcount := if atDelete.any (fun p => p.entityId == ue.id &&
                   p.connectionGroupId == g.id) then 1 else 0
               if rowcount == 0 then
                 .error (.permissionError
                   "Failed to revoke permission - no rows affected. Permission may have been removed by another operation.")
               else
                 .ok { db with cgPerms := eraseFirstCGPerm atDelete ue.id g.id }) := by
    intro db u gn race hu hgn
    unfold revokeConnectionGroupPermissionFromUser
    rw [if_neg (by simp only [beq_iff_eq]; exact hu)]
    rw [if_neg (by simp only [beq_iff_eq]; exact hgn)]
  refine ⟨?_, ?_, ?_, ?_, ?_, ?_, ?_, ?_, ?_, ?_⟩
  · intro db u cn race hc
    unfold revokeConnectionPermissionFromUser
    rw [hc]
  · intro db u cn race c hc hue
    unfold revokeConnectionPermissionFromUser
    rw [hc]
    simp only []
    rw [hue]
  · intro db u cn race c ue hc hue hany
    unfold revokeConnectionPermissionFromUser
    rw [hc]
    simp only []
    rw [hue]
    simp only []
    rw [if_pos (by simp [hany])]
  · intro db u cn c ue hc hue hany
    unfold revokeConnectionPermissionFromUser
    rw [hc]
    simp only []
    rw [hue]
    simp only []
    rw [if_neg (by simp [hany])]
    rfl
  · intro db u cn c ue hc hue hany
    have hh : revokeConnectionPermissionFromUser db u cn true = .ok
        { db with connPerms := ((db.connPerms.filter (fun p =>
            !(p.entityId == ue.id && p.connectionId == c.id))).filter (fun p =>
            !(p.entityId == ue.id && p.connectionId == c.id))) } := by
      unfold revokeConnectionPermissionFromUser
      rw [hc]
      simp only []
      rw [hue]
      simp only []
      rw [if_neg (by simp [hany])]
      simp
    exact ⟨_, hh⟩
  · intro db u gn race hu hgn hg
    rw [hcgopen db u gn race hu hgn, hg]
  · intro db u gn race g hu hgn hg hue
    rw [hcgopen db u gn race hu hgn, hg]
    simp only []
    rw [hue]
  · intro db u gn race g ue hu hgn hg hue hperm
    rw [hcgopen db u gn race hu hgn, hg]
    simp only []
    rw [hue]
    simp only []
    rw [hperm]
  · intro db u gn g ue ex hu hgn hg hue hperm
    rw [hcgopen db u gn false hu hgn, hg]
    simp only []
    rw [hue]
    simp only []
    rw [hperm]
    simp only []
    have hany : (db.cgPerms.any (fun p => p.entityId == ue.id &&
        p.connectionGroupId == g.id)) = true := by
      rw [List.any_eq_true]
      refine ⟨ex, List.mem_of_find?_eq_some hperm, ?_⟩
      have := List.find?_some hperm
      simpa using this
    rw [if_neg Bool.false_ne_true]
    rw [if_pos hany]
    rw [if_neg (by decide)]
  · intro db u gn g ue ex hu hgn hg hue hperm
    rw [hcgopen db u gn true hu hgn, hg]
    simp only []
    rw [hue]
    simp only []
    rw [hperm]
    simp only []
    have hanyf : ((db.cgPerms.filter (fun p =>
        !(p.entityId == ue.id && p.connectionGroupId == g.id))).any
        (fun p => p.entityId == ue.id && p.connectionGroupId == g.id)) = false := by
      rw [List.any_eq_false]
      intro x hx
      have hmem := List.of_mem_filter hx
      simp only [Bool.not_eq_true'] at hmem
      simp [hmem]
    rw [if_pos trivial]
    rw [hanyf]
    rw [if_neg Bool.false_ne_true]
    rw [if_pos (by decide)]

/-- Witness for C5 (amended): on a concrete store, the connection revoke
deletes the edge, the connection-group revoke deletes the edge and — under
the race — raises its zero-rows error. -/
theorem revoke_checks_and_rowcount_witness :
    revokeConnectionPermissionFromUser dbC5 "alice" "srv" false =
      .ok { dbC5 with connPerms := [] } ∧
    revokeConnectionGroupPermissionFromUser dbC5 "alice" "grp" false =
      .ok { dbC5 with cgPerms := [] } ∧
    revokeConnectionGroupPermissionFromUser dbC5 "alice" "grp" true =
      .error (.permissionError
        "Failed to revoke permission - no rows affected. Permission may have been removed by another operation.") ∧
    revokeConnectionPermissionFromUser dbC5 "alice" "other" false =
      .error (.valueError "Connection 'other' not found") := by
  refine ⟨?_, ?_, ?_, ?_⟩
  · exact revoke_checks_and_rowcount.2.2.2.1 dbC5 "alice" "srv" ⟨20, "srv", none⟩
      ⟨1, "alice", EType.user⟩ rfl rfl rfl
  · exact revoke_checks_and_rowcount.2.2.2.2.2.2.2.2.1 dbC5 "alice" "grp"
      ⟨30, "grp", none⟩ ⟨1, "alice", EType.user⟩ ⟨1, 30, "READ"⟩
      (by decide) (by decide) rfl rfl rfl
  · exact revoke_checks_and_rowcount.2.2.2.2.2.2.2.2.2 dbC5 "alice" "grp"
      ⟨30, "grp", none⟩ ⟨1, "alice", EType.user⟩ ⟨1, 30, "READ"⟩
      (by decide) (by decide) rfl rfl rfl
  · exact revoke_checks_and_rowcount.1 dbC5 "alice" "other" false rfl

/-! ## C6: orphan promotion on connection-group delete -/

theorem promoteCG_id (g : Nat) (r : CGRow) : (promoteCG g r).id = r.id := by
  unfold promoteCG
  split <;> rfl

theorem deleteConnectionGroup_resolved (gs : List CGRow) (cs : List ConnRow)
    (n : String) (G : CGRow) (hn : n ≠ "")
    (hfind : gs.find? (fun r => r.name == n) = some G) :
    deleteConnectionGroup gs cs (some n) none =
      .ok ((gs.map (promoteCG G.id)).filter (fun r => !(r.id == G.id)),
           cs.map (promoteConn G.id)) := by
  have ht : truthyS (some n) = true := by
    unfold truthyS
    simp only []
    rw [beq_false_of_ne hn]
    rfl
  unfold deleteConnectionGroup
  rw [if_neg (by rw [ht]; decide)]
  rw [if_neg (by rw [ht]; decide)]
  rw [if_pos ht]
  simp only []
  rw [hfind]

theorem deleteConnectionGroup_resolved_id (gs : List CGRow) (cs : List ConnRow)
    (i : Nat) (hi : i ≠ 0) (hex : (gs.any (fun r => r.id == i)) = true) :
    deleteConnectionGroup gs cs none (some i) =
      .ok ((gs.map (promoteCG i)).filter (fun r => !(r.id == i)),
           cs.map (promoteConn i)) := by
  have ht : truthyN (some i) = true := by
    unfold truthyN
    simp only []
    rw [beq_false_of_ne hi]
    rfl
  unfold deleteConnectionGroup
  rw [if_neg (by rw [ht]; decide)]
  rw [if_neg (by rw [ht]; decide)]
  rw [if_neg (by decide)]
  simp only []
  rw [if_pos hex]

/-- C6: for an existing connection group G (selected by name or by id),
`delete_connection_group` first sets `parent = NULL` on every connection
group and every connection whose parent equals G's id, then deletes only
G's own row: every child (group or connection) survives, promoted to root,
every other row is untouched, and no surviving group has G's id or points
at it. -/
theorem delete_group_promotes_children :
    (∀ (gs : List CGRow) (cs : List ConnRow) (n : String) (G : CGRow),
      n ≠ "" →
      gs.find? (fun r => r.name == n) = some G →
      deleteConnectionGroup gs cs (some n) none =
        .ok ((gs.map (promoteCG G.id)).filter (fun r => !(r.id == G.id)),
             cs.map (promoteConn G.id))
      ∧ (∀ r ∈ gs, r.id ≠ G.id →
          promoteCG G.id r ∈ (gs.map (promoteCG G.id)).filter (fun r => !(r.id == G.id)))
      ∧ (∀ c ∈ cs, promoteConn G.id c ∈ cs.map (promoteConn G.id))
      ∧ (∀ r ∈ (gs.map (promoteCG G.id)).filter (fun r => !(r.id == G.id)),
          r.id ≠ G.id ∧ r.parent ≠ some G.id)
      ∧ (∀ c ∈ cs.map (promoteConn G.id), c.parent ≠ some G.id))
  ∧ (∀ (gs : List CGRow) (cs : List ConnRow) (i : Nat),
      i ≠ 0 → (gs.any (fun r => r.id == i)) = true →
      deleteConnectionGroup gs cs none (some i) =
        .ok ((gs.map (promoteCG i)).filter (fun r => !(r.id == i)),
             cs.map (promoteConn i))) := by
  constructor
  · intro gs cs n G hn hfind
    refine ⟨deleteConnectionGroup_resolved gs cs n G hn hfind, ?_, ?_, ?_, ?_⟩
    · intro r hr hne
      refine List.mem_filter.mpr ⟨List.mem_map_of_mem _ hr, ?_⟩
      rw [promoteCG_id]
      simp [beq_false_of_ne hne]
    · intro c hc
      exact List.mem_map_of_mem _ hc
    · intro r hr
      obtain ⟨hmem, hid⟩ := List.mem_filter.mp hr
      obtain ⟨r0, _, rfl⟩ := List.mem_map.mp hmem
      constructor
      · rw [promoteCG_id]
        rw [promoteCG_id] at hid
        simpa using hid
      · unfold promoteCG
        split
        · simp
        · next hne =>
          intro hcon
          exact hne (by simp [hcon])
    · intro c hc
      obtain ⟨c0, _, rfl⟩ := List.mem_map.mp hc
      unfold promoteConn
      split
      · simp
      · next hne =>
        intro hcon
        exact hne (by simp [hcon])
  · intro gs cs i hi hex
    exact deleteConnectionGroup_resolved_id gs cs i hi hex

/-- Witness for C6: deleting `root` (two child groups, one child
connection) leaves both children and both connections in the store with
null parents and removes only the `root` row. -/
theorem delete_group_promotes_children_witness :
    deleteConnectionGroup gsC6 csC6 (some "root") none =
      .ok ([⟨2, "childA", none⟩, ⟨3, "childB", none⟩],
           [⟨40, "conn1", none⟩, ⟨41, "conn2", none⟩]) := by
  have h := (delete_group_promotes_children.1 gsC6 csC6 "root" ⟨1, "root", none⟩
    (by decide) rfl).1
  exact h

/-! ## C7: idempotent membership grant -/

theorem ugperm_any_false_iff_count_zero (l : List UGPermRow) (p : UGPermRow → Bool) :
    (l.any p) = false ↔ (l.filter p).length = 0 := by
  rw [List.length_eq_zero, List.filter_eq_nil_iff, List.any_eq_false]

theorem addUserToUsergroup_char (db : Db) (u gn : String) (ug : UGRow) (ue : EntityRow)
    (hfg : findUserGroup db gn = some ug)
    (hue : db.entities.find? (fun e => e.name == u && e.etype == EType.user) = some ue) :
    addUserToUsergroup db u gn =
      .ok { db with
        members := db.members ++ [⟨ug.userGroupId, ue.id⟩],
        ugPerms := (if (db.ugPerms.any (fun p => p.entityId == ue.id &&
            p.affectedUserGroupId == ug.userGroupId && p.permission == "READ")) = true
          then db.ugPerms
          else db.ugPerms ++ [⟨ue.id, ug.userGroupId, "READ"⟩]) } := by
  unfold addUserToUsergroup
  rw [hfg]
  simp only []
  rw [hue]

theorem filter_read_append (l : List UGPermRow) (uid gid : Nat) :
    (l ++ [(⟨uid, gid, "READ"⟩ : UGPermRow)]).filter (fun p => p.entityId == uid &&
      p.affectedUserGroupId == gid && p.permission == "READ") =
    (l.filter (fun p => p.entityId == uid &&
      p.affectedUserGroupId == gid && p.permission == "READ")) ++ [⟨uid, gid, "READ"⟩] := by
  rw [List.filter_append]
  congr 1
  simp [List.filter]

theorem addUser_effects (db : Db) (u gn : String) (ug : UGRow) (ue : EntityRow)
    (hfg : findUserGroup db gn = some ug)
    (hue : db.entities.find? (fun e => e.name == u && e.etype == EType.user) = some ue)
    (db1 : Db) (h1 : addUserToUsergroup db u gn = .ok db1) :
    db1.members = db.members ++ [⟨ug.userGroupId, ue.id⟩] ∧
    db1.entities = db.entities ∧
    db1.userGroups = db.userGroups ∧
    (countReadUGPerm db ue.id ug.userGroupId = 0 →
      db1.ugPerms = db.ugPerms ++ [⟨ue.id, ug.userGroupId, "READ"⟩]) ∧
    (countReadUGPerm db ue.id ug.userGroupId ≠ 0 → db1.ugPerms = db.ugPerms) ∧
    countReadUGPerm db1 ue.id ug.userGroupId =
      (if countReadUGPerm db ue.id ug.userGroupId = 0 then 1
       else countReadUGPerm db ue.id ug.userGroupId) := by
  rw [addUserToUsergroup_char db u gn ug ue hfg hue] at h1
  have hdb1 : db1 = { db with
      members := db.members ++ [⟨ug.userGroupId, ue.id⟩],
      ugPerms := (if (db.ugPerms.any (fun p => p.entityId == ue.id &&
          p.affectedUserGroupId == ug.userGroupId && p.permission == "READ")) = true
        then db.ugPerms
        else db.ugPerms ++ [⟨ue.id, ug.userGroupId, "READ"⟩]) } := by
    cases h1
    rfl
  subst hdb1
  cases hany : (db.ugPerms.any (fun p => p.entityId == ue.id &&
      p.affectedUserGroupId == ug.userGroupId && p.permission == "READ")) with
  | false =>
    have hcount : countReadUGPerm db ue.id ug.userGroupId = 0 :=
      (ugperm_any_false_iff_count_zero _ _).mp hany
    refine ⟨rfl, rfl, rfl, fun _ => rfl, fun hc => absurd hcount hc, ?_⟩
    rw [if_pos hcount]
    show ((if false = true then db.ugPerms
      else db.ugPerms ++ [⟨ue.id, ug.userGroupId, "READ"⟩]).filter (fun p =>
        p.entityId == ue.id && p.affectedUserGroupId == ug.userGroupId &&
        p.permission == "READ")).length = 1
    rw [if_neg Bool.false_ne_true]
    rw [filter_read_append]
    rw [List.length_append]
    have hc0 : (db.ugPerms.filter (fun p => p.entityId == ue.id &&
        p.affectedUserGroupId == ug.userGroupId && p.permission == "READ")).length = 0 :=
      hcount
    rw [hc0]
    rfl
  | true =>
    have hcount : countReadUGPerm db ue.id ug.userGroupId ≠ 0 := by
      intro h0
      have hf := (ugperm_any_false_iff_count_zero db.ugPerms _).mpr h0
      rw [hany] at hf
      cases hf
    refine ⟨rfl, rfl, rfl, fun hc => absurd hc hcount, fun _ => rfl, ?_⟩
    rw [if_neg hcount]
    rfl

/-- C7: for an existing user and user group, `add_user_to_usergroup`
inserts the membership row and grants the READ permission edge on the
group if and only if no such READ edge exists yet (insert-if-absent, never
insert-or-update); in particular the READ-edge count becomes 1 when it was
0 and is unchanged otherwise, so after any two calls adding the same user
to the same group at most one READ edge exists. -/
theorem add_user_read_grant_idempotent :
    ∀ (db : Db) (u gn : String) (ug : UGRow) (ue : EntityRow),
      findUserGroup db gn = some ug →
      db.entities.find? (fun e => e.name == u && e.etype == EType.user) = some ue →
      (∀ db1, addUserToUsergroup db u gn = .ok db1 →
        db1.members = db.members ++ [⟨ug.userGroupId, ue.id⟩] ∧
        (countReadUGPerm db ue.id ug.userGroupId = 0 →
          db1.ugPerms = db.ugPerms ++ [⟨ue.id, ug.userGroupId, "READ"⟩]) ∧
        (countReadUGPerm db ue.id ug.userGroupId ≠ 0 → db1.ugPerms = db.ugPerms) ∧
        countReadUGPerm db1 ue.id ug.userGroupId =
          (if countReadUGPerm db ue.id ug.userGroupId = 0 then 1
           else countReadUGPerm db ue.id ug.userGroupId)) ∧
      (countReadUGPerm db ue.id ug.userGroupId ≤ 1 →
        ∀ db1 db2, addUserToUsergroup db u gn = .ok db1 →
          addUserToUsergroup db1 u gn = .ok db2 →
          countReadUGPerm db2 ue.id ug.userGroupId ≤ 1) := by
  intro db u gn ug ue hfg hue
  constructor
  · intro db1 h1
    obtain ⟨hm, _, _, hz, hnz, hcnt⟩ := addUser_effects db u gn ug ue hfg hue db1 h1
    exact ⟨hm, hz, hnz, hcnt⟩
  · intro hle db1 db2 h1 h2
    obtain ⟨_, hent1, hugr1, _, _, hcnt1⟩ := addUser_effects db u gn ug ue hfg hue db1 h1
    have hfg1 : findUserGroup db1 gn = some ug := by
      unfold findUserGroup at hfg ⊢
      rw [hent1, hugr1]
      exact hfg
    have hue1 : db1.entities.find? (fun e => e.name == u && e.etype == EType.user) = some ue := by
      rw [hent1]
      exact hue
    obtain ⟨_, _, _, _, _, hcnt2⟩ := addUser_effects db1 u gn ug ue hfg1 hue1 db2 h2
    rw [hcnt2, hcnt1]
    by_cases h0 : countReadUGPerm db ue.id ug.userGroupId = 0 <;> simp [h0] <;> omega

/-- Witness for C7: adding `alice` to `devs` inserts the membership and
the READ edge, and adding her a second time leaves at most one READ edge. -/
theorem add_user_read_grant_idempotent_witness :
    ({ dbC7 with members := [⟨10, 1⟩], ugPerms := [⟨1, 10, "READ"⟩] } : Db).ugPerms =
      dbC7.ugPerms ++ [⟨1, 10, "READ"⟩] ∧
    countReadUGPerm { dbC7 with members := [⟨10, 1⟩, ⟨10, 1⟩], ugPerms := [⟨1, 10, "READ"⟩] } 1 10 ≤ 1 := by
  constructor
  · have h := (add_user_read_grant_idempotent dbC7 "alice" "devs" ⟨10, 2⟩
      ⟨1, "alice", EType.user⟩ rfl rfl).1
      { dbC7 with members := [⟨10, 1⟩], ugPerms := [⟨1, 10, "READ"⟩] } rfl
    exact h.2.1 rfl
  · exact (add_user_read_grant_idempotent dbC7 "alice" "devs" ⟨10, 2⟩
      ⟨1, "alice", EType.user⟩ rfl rfl).2 (by decide)
      { dbC7 with members := [⟨10, 1⟩], ugPerms := [⟨1, 10, "READ"⟩] }
      { dbC7 with members := [⟨10, 1⟩, ⟨10, 1⟩], ugPerms := [⟨1, 10, "READ"⟩] }
      rfl rfl

/-! ## C10: removing a user from a user group -/

/-- C10: for a member of an existing user group,
`remove_user_from_usergroup` deletes both the membership row and every
permission edge of the user on the group (the final DELETE carries no
permission-level filter); when the group or the user does not exist, or
the user is not a member, it raises an error before any DELETE and the
transaction leaves the store unchanged. -/
theorem remove_user_from_usergroup_cleanup :
    (∀ (db : Db) (u gn : String),
      findUserGroup db gn = none →
      removeUserFromUsergroup db u gn =
        .error (.valueError s!"User group '{gn}' not found") ∧
      runTx (removeUserFromUsergroup db u gn) db = db) ∧
    (∀ (db : Db) (u gn : String) (ug : UGRow),
      findUserGroup db gn = some ug →
      db.entities.find? (fun e => e.name == u && e.etype == EType.user) = none →
      removeUserFromUsergroup db u gn =
        .error (.valueError s!"User '{u}' not found") ∧
      runTx (removeUserFromUsergroup db u gn) db = db) ∧
    (∀ (db : Db) (u gn : String) (ug : UGRow) (ue : EntityRow),
      findUserGroup db gn = some ug →
      db.entities.find? (fun e => e.name == u && e.etype == EType.user) = some ue →
      (∀ m ∈ db.members, ¬(m.userGroupId = ug.userGroupId ∧ m.memberEntityId = ue.id)) →
      removeUserFromUsergroup db u gn =
        .error (.valueError s!"User '{u}' is not in group '{gn}'") ∧
      runTx (removeUserFromUsergroup db u gn) db = db) ∧
    (∀ (db : Db) (u gn : String) (ug : UGRow) (ue : EntityRow),
      findUserGroup db gn = some ug →
      db.entities.find? (fun e => e.name == u && e.etype == EType.user) = some ue →
      (∃ m ∈ db.members, m.userGroupId = ug.userGroupId ∧ m.memberEntityId = ue.id) →
      removeUserFromUsergroup db u gn =
        .ok { db with
          members := (db.members.filter (fun m =>
            !(m.userGroupId == ug.userGroupId && m.memberEntityId == ue.id))),
          ugPerms := (db.ugPerms.filter (fun p =>
            !(p.entityId == ue.id && p.affectedUserGroupId == ug.userGroupId))) } ∧
      (∀ m ∈ (db.members.filter (fun m =>
          !(m.userGroupId == ug.userGroupId && m.memberEntityId == ue.id))),
        ¬(m.userGroupId = ug.userGroupId ∧ m.memberEntityId = ue.id)) ∧
      (∀ p ∈ (db.ugPerms.filter (fun p =>
          !(p.entityId == ue.id && p.affectedUserGroupId == ug.userGroupId))),
        ¬(p.entityId = ue.id ∧ p.affectedUserGroupId = ug.userGroupId))) := by
  refine ⟨?_, ?_, ?_, ?_⟩
  · intro db u gn hfg
    have h : removeUserFromUsergroup db u gn =
        .error (.valueError s!"User group '{gn}' not found") := by
      unfold removeUserFromUsergroup
      rw [hfg]
    exact ⟨h, by unfold runTx; rw [h]⟩
  · intro db u gn ug hfg hue
    have h : removeUserFromUsergroup db u gn =
        .error (.valueError s!"User '{u}' not found") := by
      unfold removeUserFromUsergroup
      rw [hfg]
      simp only []
      rw [hue]
    exact ⟨h, by unfold runTx; rw [h]⟩
  · intro db u gn ug ue hfg hue hnomem
    have hfil : db.members.filter (fun m =>
        m.userGroupId == ug.userGroupId && m.memberEntityId == ue.id) = [] := by
      rw [List.filter_eq_nil_iff]
      intro m hm hp
      apply hnomem m hm
      constructor
      · have := (by simpa using hp : m.userGroupId = ug.userGroupId ∧ m.memberEntityId = ue.id)
        exact this.1
      · have := (by simpa using hp : m.userGroupId = ug.userGroupId ∧ m.memberEntityId = ue.id)
        exact this.2
    have h : removeUserFromUsergroup db u gn =
        .error (.valueError s!"User '{u}' is not in group '{gn}'") := by
      unfold removeUserFromUsergroup
      rw [hfg]
      simp only []
      rw [hue]
      simp only []
      rw [hfil]
      rfl
    exact ⟨h, by unfold runTx; rw [h]⟩
  · intro db u gn ug ue hfg hue hmem
    obtain ⟨m0, hm0, hm1, hm2⟩ := hmem
    have hpos : 0 < (db.members.filter (fun m =>
        m.userGroupId == ug.userGroupId && m.memberEntityId == ue.id)).length := by
      have : m0 ∈ db.members.filter (fun m =>
          m.userGroupId == ug.userGroupId && m.memberEntityId == ue.id) :=
        List.mem_filter.mpr ⟨hm0, by simp [hm1, hm2]⟩
      exact List.length_pos.mpr (List.ne_nil_of_mem this)
    refine ⟨?_, ?_, ?_⟩
    · unfold removeUserFromUsergroup
      rw [hfg]
      simp only []
      rw [hue]
      simp only []
      rw [if_neg (by simp only [beq_iff_eq]; omega)]
    · intro m hm hcon
      have hkeep := (List.mem_filter.mp hm).2
      simp [hcon.1, hcon.2] at hkeep
    · intro p hp hcon
      have hkeep := (List.mem_filter.mp hp).2
      simp [hcon.1, hcon.2] at hkeep

/-- Witness for C10: removing `alice` from `devs` deletes her membership
row and her READ edge; removing her when she is not a member raises and
leaves the store unchanged. -/
theorem remove_user_from_usergroup_cleanup_witness :
    removeUserFromUsergroup dbC10 "alice" "devs" =
      .ok { dbC10 with members := [], ugPerms := [] } ∧
    removeUserFromUsergroup dbC7 "alice" "devs" =
      .error (.valueError "User 'alice' is not in group 'devs'") ∧
    runTx (removeUserFromUsergroup dbC7 "alice" "devs") dbC7 = dbC7 := by
  have hok := (remove_user_from_usergroup_cleanup.2.2.2 dbC10 "alice" "devs"
    ⟨10, 2⟩ ⟨1, "alice", EType.user⟩ rfl rfl
    ⟨⟨10, 1⟩, by decide, rfl, rfl⟩).1
  have herr := remove_user_from_usergroup_cleanup.2.2.1 dbC7 "alice" "devs"
    ⟨10, 2⟩ ⟨1, "alice", EType.user⟩ rfl rfl
    (fun m hm => absurd hm (List.not_mem_nil m))
  exact ⟨hok, herr.1, herr.2⟩

/-! ## C9: fresh salt on every credential issuance -/

/-- C9: every call to `create_user` and `change_user_password` stores
exactly the 32-byte value drawn from `os.urandom(32)` during that call as
the salt — on rotation the stored salt differs from the previous one
whenever the fresh draw does — together with
`password_hash = SHA256(password ++ uppercase-hex(salt))`. -/
theorem credential_salt_freshness (sha256 : List Nat → List Nat) :
    (∀ (db : Db) (u pw : String) (salt : List Nat) (eid now : Nat),
      userExists db u = false →
      salt.length = 32 →
      (createUser sha256 db u pw salt eid now).users =
        db.users ++ [⟨eid, sha256 (utf8Bytes pw ++ hexlifyUpper salt), salt, now⟩] ∧
      (∀ r ∈ (createUser sha256 db u pw salt eid now).users, r ∉ db.users →
        r.passwordSalt = salt ∧ r.passwordSalt.length = 32 ∧
        r.passwordHash = sha256 (utf8Bytes pw ++ hexlifyUpper salt))) ∧
    (∀ (db : Db) (u pw : String) (salt : List Nat) (now : Nat)
        (ue : EntityRow) (old : UserRow),
      db.entities.find? (fun e => e.name == u && e.etype == EType.user) = some ue →
      old ∈ db.users → old.entityId = ue.id →
      old.passwordSalt ≠ salt →
      ∃ db2, changeUserPassword sha256 db u pw salt now = .ok db2 ∧
        db2.users = db.users.map (fun w =>
          if w.entityId == ue.id then
            { w with passwordHash := sha256 (utf8Bytes pw ++ hexlifyUpper salt),
                     passwordSalt := salt, passwordDate := now }
          else w) ∧
        (∀ w ∈ db2.users, w.entityId = ue.id →
          w.passwordSalt = salt ∧ w.passwordSalt ≠ old.passwordSalt ∧
          w.passwordHash = sha256 (utf8Bytes pw ++ hexlifyUpper salt))) := by
  constructor
  · intro db u pw salt eid now hnex hlen
    have hfilterold : db.entities.filter
        (fun e => e.name == u && e.etype == EType.user) = [] := by
      rw [List.filter_eq_nil_iff]
      unfold userExists at hnex
      rw [List.any_eq_false] at hnex
      exact hnex
    have hfilternew : ([(⟨eid, u, EType.user⟩ : EntityRow)].filter
        (fun e => e.name == u && e.etype == EType.user)) = [⟨eid, u, EType.user⟩] := by
      simp [List.filter]
    have husers : (createUser sha256 db u pw salt eid now).users =
        db.users ++ [⟨eid, sha256 (utf8Bytes pw ++ hexlifyUpper salt), salt, now⟩] := by
      unfold createUser
      simp only []
      rw [List.filter_append, hfilterold, List.nil_append, hfilternew]
      rfl
    refine ⟨husers, ?_⟩
    intro r hr hnot
    rw [husers] at hr
    rcases List.mem_append.mp hr with h | h
    · exact absurd h hnot
    · have hreq : r = ⟨eid, sha256 (utf8Bytes pw ++ hexlifyUpper salt), salt, now⟩ := by
        simpa using h
      rw [hreq]
      exact ⟨rfl, hlen, rfl⟩
  · intro db u pw salt now ue old hue hold holdid hsalt
    have hmemf : old ∈ db.users.filter (fun w => w.entityId == ue.id &&
        !(w.passwordHash == sha256 (utf8Bytes pw ++ hexlifyUpper salt) &&
          w.passwordSalt == salt && w.passwordDate == now)) := by
      refine List.mem_filter.mpr ⟨hold, ?_⟩
      simp [holdid, beq_false_of_ne hsalt]
    have hpos : 0 < (db.users.filter (fun w => w.entityId == ue.id &&
        !(w.passwordHash == sha256 (utf8Bytes pw ++ hexlifyUpper salt) &&
          w.passwordSalt == salt && w.passwordDate == now))).length :=
      List.length_pos.mpr (List.ne_nil_of_mem hmemf)
    have hok : changeUserPassword sha256 db u pw salt now =
        .ok { db with users := db.users.map (fun w =>
          if w.entityId == ue.id then
            { w with passwordHash := sha256 (utf8Bytes pw ++ hexlifyUpper salt),
                     passwordSalt := salt, passwordDate := now }
          else w) } := by
      unfold changeUserPassword
      rw [hue]
      simp only []
      rw [if_neg (by simp only [beq_iff_eq]; omega)]
    refine ⟨_, hok, rfl, ?_⟩
    intro w hw hwid
    simp only [] at hw
    obtain ⟨w0, hw0, hweq⟩ := List.mem_map.mp hw
    by_cases h0 : (w0.entityId == ue.id) = true
    · rw [if_pos h0] at hweq
      rw [← hweq]
      exact ⟨rfl, fun hcon => hsalt (by rw [← hcon]), rfl⟩
    · rw [if_neg h0] at hweq
      exfalso
      apply h0
      rw [hweq]
      simp [hwid]

/-- Witness for C9: creating `bob` stores the fresh 32-byte salt and its
derived hash, and rotating `alice`'s password stores the new draw, which
differs from her previously stored salt. -/
theorem credential_salt_freshness_witness :
    ((createUser (fun l => l) dbC9 "bob" "pw" (List.replicate 32 0) 2 5).users =
      dbC9.users ++ [⟨2, utf8Bytes "pw" ++ hexlifyUpper (List.replicate 32 0),
        List.replicate 32 0, 5⟩]) ∧
    (∃ db2, changeUserPassword (fun l => l) dbC9 "alice" "new"
        (List.replicate 32 7) 6 = .ok db2 ∧
      db2.users = dbC9.users.map (fun w =>
        if w.entityId == 1 then
          { w with passwordHash := utf8Bytes "new" ++ hexlifyUpper (List.replicate 32 7),
                   passwordSalt := List.replicate 32 7, passwordDate := 6 }
        else w) ∧
      (∀ w ∈ db2.users, w.entityId = 1 →
        w.passwordSalt = List.replicate 32 7 ∧
        w.passwordSalt ≠ [1] ∧
        w.passwordHash = utf8Bytes "new" ++ hexlifyUpper (List.replicate 32 7))) := by
  constructor
  · exact ((credential_salt_freshness (fun l => l)).1 dbC9 "bob" "pw"
      (List.replicate 32 0) 2 5 rfl (by simp)).1
  · exact (credential_salt_freshness (fun l => l)).2 dbC9 "alice" "new"
      (List.replicate 32 7) 6 ⟨1, "alice", EType.user⟩ ⟨1, [9], [1], 0⟩
      rfl (by decide) rfl (by decide)

end Guacalib
